import Mathlib

/-!
Verification of the productivity-app backend core (`api/analyze.py`,
`api/weekly-report.py`, `api/security.py`).

The Python code is shallowly embedded: parsed JSON values become the
inductive type `Json`; Python dicts are insertion-ordered association
lists (`json.loads` produces unique keys); Python exceptions become
`Except PyErr`; the external model call together with `json.loads` is
represented by its outcome (an `Except PyErr Json` input), while every
deterministic text-processing and normalization step of the source is
modelled concretely.  Python strings are Lean strings (lists of
characters); slicing, strip, lower/upper and substring tests are
modelled character-wise (ASCII semantics, which covers every literal the
code manipulates).
-/

/-! ## Python string primitives -/

def lbrace : Char := Char.ofNat 123

def rbrace : Char := Char.ofNat 125

/-- Python `str.strip()` whitespace class (ASCII part). -/
def isPyWs (c : Char) : Bool :=
  c = ' ' || c = '\t' || c = '\n' || c = '\r' || c = Char.ofNat 11 || c = Char.ofNat 12

def pyStripL (l : List Char) : List Char :=
  ((l.dropWhile isPyWs).reverse.dropWhile isPyWs).reverse

/-- Python `str.strip()`. -/
def pyStrip (s : String) : String := String.mk (pyStripL s.data)

/-- Python `str.lower()` (ASCII). -/
def pyLower (s : String) : String := String.mk (s.data.map Char.toLower)

/-- Python `str.upper()` (ASCII). -/
def pyUpper (s : String) : String := String.mk (s.data.map Char.toUpper)

/-- Python slice `s[:n]` (by code points). -/
def pyTake (n : Nat) (s : String) : String := String.mk (s.data.take n)

def startsWithL (hay pat : List Char) : Bool :=
  match hay, pat with
  | _, [] => true
  | [], _ :: _ => false
  | a :: as, b :: bs => a = b && startsWithL as bs

/-- Python substring test `pat in hay`. -/
def containsSubL (hay pat : List Char) : Bool :=
  match hay with
  | [] => pat.isEmpty
  | _ :: t => startsWithL hay pat || containsSubL t pat

def containsSub (hay pat : String) : Bool := containsSubL hay.data pat.data

/-- Index of the first occurrence of `pat` in `hay` (Python `str.find` on success). -/
def findSubL (hay pat : List Char) : Option Nat :=
  match hay with
  | [] => if pat.isEmpty then some 0 else none
  | _ :: t => if startsWithL hay pat then some 0 else (findSubL t pat).map (· + 1)

/-- Python `sep.join(xs)`. -/
def joinStr (sep : String) : List String → String
  | [] => ""
  | [x] => x
  | x :: y :: xs => x ++ sep ++ joinStr sep (y :: xs)

/-! ## Parsed JSON values (output of `json.loads`) -/

inductive Json where
  | null
  | bool (b : Bool)
  | num (q : ℚ)
  | str (s : String)
  | arr (xs : List Json)
  | obj (kvs : List (String × Json))

/-- Python exception: class name and message. -/
structure PyErr where
  name : String
  msg : String
deriving DecidableEq

/-- The `f"{type(e).__name__}: {str(e)}"` rendering used by the code. -/
def errMsg (e : PyErr) : String := e.name ++ ": " ++ e.msg

/-- Python dict lookup `d.get(k)` on a Python dict (association list with unique keys). -/
def jLookup : List (String × Json) → String → Option Json
  | [], _ => none
  | (k, v) :: t, key => if k = key then some v else jLookup t key

/-- Python dict assignment `d[k] = v`: replace the value in place, or append the new key. -/
def jSet : List (String × Json) → String → Json → List (String × Json)
  | [], key, v => [(key, v)]
  | (k, w) :: t, key, v => if k = key then (k, v) :: t else (k, w) :: jSet t key v

/-- Python `d.setdefault(k, v)`: append the key with `v` only when absent. -/
def jSetdefault (d : List (String × Json)) (key : String) (v : Json) : List (String × Json) :=
  match jLookup d key with
  | some _ => d
  | none => d ++ [(key, v)]

/-- Field access on a `Json` value that is expected to be an object. -/
def jGet (j : Json) (key : String) : Option Json :=
  match j with
  | .obj kvs => jLookup kvs key
  | _ => none

/-- Python truthiness of a parsed JSON value. -/
def pyTruthy : Json → Bool
  | .null => false
  | .bool b => b
  | .num q => q ≠ 0
  | .str s => s ≠ ""
  | .arr xs => !xs.isEmpty
  | .obj kvs => !kvs.isEmpty

/-! Rendering of parsed values by Python `str()` / `repr()`, as exercised by
the f-strings of the normalizer.  Numbers are rendered in decimal (Python
prints the shortest float repr; the difference is immaterial to the claims,
none of which stringifies a non-integer). -/

def fracDigits : Nat → ℚ → String
  | 0, _ => ""
  | fuel + 1, q =>
    if q = 0 then ""
    else
      let q10 := q * 10
      let d := q10.num.fdiv (q10.den : ℤ)
      toString d ++ fracDigits fuel (q10 - (d : ℚ))

def numReprNN (q : ℚ) : String :=
  let ip := q.num.fdiv (q.den : ℤ)
  let fr := q - (ip : ℚ)
  let ds := fracDigits 17 fr
  toString ip ++ "." ++ (if ds = "" then "0" else ds)

def numRepr (q : ℚ) : String :=
  if q.den = 1 then toString q.num
  else if q < 0 then "-" ++ numReprNN (-q) else numReprNN q

mutual

/-- Python `repr()` of a parsed JSON value (string escaping approximated). -/
def pyRepr : Json → String
  | .null => "None"
  | .bool true => "True"
  | .bool false => "False"
  | .num q => numRepr q
  | .str s => "'" ++ s ++ "'"
  | .arr xs => "[" ++ pyReprList xs ++ "]"
  | .obj kvs => "\x7b" ++ pyReprKVs kvs ++ "\x7d"

def pyReprList : List Json → String
  | [] => ""
  | [x] => pyRepr x
  | x :: y :: xs => pyRepr x ++ ", " ++ pyReprList (y :: xs)

def pyReprKVs : List (String × Json) → String
  | [] => ""
  | [(k, v)] => "'" ++ k ++ "': " ++ pyRepr v
  | (k, v) :: y :: xs => "'" ++ k ++ "': " ++ pyRepr v ++ ", " ++ pyReprKVs (y :: xs)

end

/-- Python `str()` of a parsed JSON value. -/
def pyStr (j : Json) : String :=
  match j with
  | .str s => s
  | _ => pyRepr j

/-! ## `api/security.py` -/

/-- A request-body value as seen by `validate_date`: either a Python `str`,
or a value of some other type (whose content is irrelevant: the
`isinstance(date_str, str)` guard rejects it). -/
inductive PyVal where
  | str (s : String)
  | other
deriving DecidableEq

/-- The regex `^\d{4}-\d{2}-\d{2}$` applied by `re.match` to the stripped
string (`\d` modelled as an ASCII digit). -/
def dateShape : List Char → Bool
  | [a, b, c, d, e, f, g, h, i, j] =>
    a.isDigit && b.isDigit && c.isDigit && d.isDigit && e = '-' &&
    f.isDigit && g.isDigit && h = '-' && i.isDigit && j.isDigit
  | _ => false

/-- Function `validate_date` from `api/security.py`. -/
def validate_date (v : PyVal) : Option String :=
  match v with
  | .other => none
  | .str s =>
    if s = "" then none
    else if dateShape (pyStrip s).data then some (pyStrip s) else none

/-- The fernet cipher object (`cryptography.fernet.Fernet`), present only
when `ENCRYPTION_KEY` is configured.  `enc` is `Fernet.encrypt`, `dec` is
`Fernet.decrypt`, which raises on tokens it cannot decrypt. -/
structure Fernet where
  enc : String → String
  dec : String → Except PyErr String

/-- Function `encrypt` from `api/security.py`; `cfg` is `_get_fernet()`. -/
def encrypt (cfg : Option Fernet) (text : String) : String :=
  if text = "" then text
  else
    match cfg with
    | none => text
    | some f => f.enc text

/-- Function `decrypt` from `api/security.py`; `cfg` is `_get_fernet()`. -/
def decrypt (cfg : Option Fernet) (text : String) : String :=
  if text = "" then text
  else
    match cfg with
    | none => text
    | some f =>
      match f.dec text with
      | .ok s => s
      | .error _ => text

/-! ## `api/analyze.py`: the Input Gate (`check_missing_answer`) -/

/-- The fixed keyword list of line 30 of `api/analyze.py`. -/
def energyKeywords : List String :=
  ["energy", "tired", "drained", "focused", "focus", "productive", "work", "deep work"]

/-- Function `check_missing_answer` from `api/analyze.py`.  `key` is the raw
`OPENAI_API_KEY` value; `gpt` is the outcome of the
`client.chat.completions.create` call (the returned message content, or the
raised exception), reached only when the early returns do not fire. -/
def check_missing_answer (transcript : String) (key : String)
    (gpt : Except PyErr String) : Option String :=
  let t := pyStrip transcript
  if t = "" ∨ t.length < 10 then none
  else if t.length < 80 ∧ energyKeywords.all (fun w => !containsSub (pyLower t) w) then
    some "How was your energy and focus today?"
  else if key = "" then none
  else
    match gpt with
    | .error _ => none
    | .ok content =>
      let full := pyStrip content
      if full = "" ∨ pyUpper full = "NONE" then none
      else if full.endsWith "?" then some full else none

/-! ## `api/analyze.py`: the response text pipeline (lines 105-119)

`text.strip()`, the fenced-block unwrap, the first-`{`/last-`}` slice and
the two trailing-comma regex repairs, exactly as applied to the FULL
response before `json.loads`. -/

def backtickC : Char := Char.ofNat 96

/-- Length of the leading `\s*` run. -/
def wsRunLen (l : List Char) : Nat := (l.takeWhile isPyWs).length

/-- One left-to-right pass of `re.sub(r",\s*C", "C", text)` for a closing
character `C`; fuelled so that it reduces in the kernel (the fuel is the
input length, which always suffices). -/
def fixCommaF (close : Char) : Nat → List Char → List Char
  | 0, l => l
  | _ + 1, [] => []
  | fuel + 1, c :: rest =>
    if c = ',' then
      match rest.drop (wsRunLen rest) with
      | c2 :: rest2 =>
        if c2 = close then close :: fixCommaF close fuel rest2
        else c :: fixCommaF close fuel rest
      | [] => c :: rest
    else c :: fixCommaF close fuel rest

def fixComma (close : Char) (l : List Char) : List Char := fixCommaF close l.length l

/-- Lines 108-112: if the stripped text opens with a triple backtick, keep
`text.split("```")[1]`, drop a leading `json` tag, and strip again. -/
def stripFence (l : List Char) : List Char :=
  if startsWithL l [backtickC, backtickC, backtickC] then
    let rest := l.drop 3
    let seg :=
      match findSubL rest [backtickC, backtickC, backtickC] with
      | some i => rest.take i
      | none => rest
    let seg :=
      if startsWithL (seg.map Char.toLower) ['j', 's', 'o', 'n'] then seg.drop 4 else seg
    pyStripL seg
  else l

/-- Index of the first character satisfying `p` (`str.find` on success;
`str.rfind` is recovered on the reversed list). -/
def findIdxC (p : Char → Bool) : List Char → Option Nat
  | [] => none
  | c :: t => if p c then some 0 else (findIdxC p t).map (· + 1)

/-- Lines 113-116: `start = text.find("{")`, `end = text.rfind("}") + 1`,
slice when `start >= 0 and end > start`. -/
def braceSlice (l : List Char) : List Char :=
  match findIdxC (· = lbrace) l, findIdxC (· = rbrace) l.reverse with
  | some s, some rj =>
    let e := l.length - rj
    if s < e then (l.take e).drop s else l
  | _, _ => l

/-- The complete FULL-path text pipeline of lines 105-119 (strip, unfence,
brace-slice, then the `,\s*}` repair followed by the `,\s*]` repair). -/
def extractJsonL (l : List Char) : List Char :=
  fixComma ']' (fixComma rbrace (braceSlice (stripFence (pyStripL l))))

def extractJson (s : String) : String := String.mk (extractJsonL s.data)


/-! ## `api/analyze.py`: the shape normalizer (lines 121-157) -/

abbrev KVs := List (String × Json)

/-- Lines 122-125: the four `data.setdefault(...)` calls, in source order. -/
def setdefaults (d : KVs) : KVs :=
  jSetdefault (jSetdefault (jSetdefault (jSetdefault d
    "reflection_summary" (.str ""))
    "likely_drivers" (.arr []))
    "predicted_impact" (.str ""))
    "experiment_for_tomorrow" (.str "")

/-- Lines 128-131: a string-expected field that arrived as a dict is
rendered as newline-joined `"key: value"` lines (each value through
Python `str()`); any other shape is left untouched. -/
def flattenDictField (d : KVs) (f : String) : KVs :=
  match jLookup d f with
  | some (.obj kvs) =>
    jSet d f (.str (joinStr "\n" (kvs.map fun kv => kv.1 ++ ": " ++ pyStr kv.2)))
  | _ => d

def strFields : List String :=
  ["reflection_summary", "predicted_impact", "experiment_for_tomorrow", "core_bottleneck"]

def flattenDictFields (d : KVs) : KVs := strFields.foldl flattenDictField d

/-- Lines 137-141: one `likely_drivers` item; dicts become em-dash-joined
`"key: value"` runs, anything else goes through `str()`. -/
def normDriver (j : Json) : String :=
  match j with
  | .obj kvs => joinStr " — " (kvs.map fun kv => kv.1 ++ ": " ++ pyStr kv.2)
  | _ => pyStr j

/-- Lines 133-142: `likely_drivers` is rebuilt as a list of strings when it
is a list; a non-list value is left unchanged. -/
def normDrivers (d : KVs) : KVs :=
  match (jLookup d "likely_drivers").getD (.arr []) with
  | .arr xs => jSet d "likely_drivers" (.arr (xs.map fun x => .str (normDriver x)))
  | _ => d

/-- Lines 144-148: merge a truthy `core_bottleneck` into
`reflection_summary` (both interpolated through `str()`). -/
def mergeCore (d : KVs) : KVs :=
  let core := (jLookup d "core_bottleneck").getD (.str "")
  if pyTruthy core then
    let summary := (jLookup d "reflection_summary").getD (.str "")
    jSet d "reflection_summary"
      (.str ("Core bottleneck: " ++ pyStr core ++ "\n\n" ++ pyStr summary))
  else d

/-- Slicing `micro[:3]` followed by the `f"• {m}"` renderings: lists are sliced,
strings are sliced into their characters, anything else raises `TypeError`
(Python cannot slice ints, bools or dicts). -/
def microItems3 : Json → Except PyErr (List String)
  | .arr xs => .ok ((xs.take 3).map pyStr)
  | .str s => .ok ((s.data.take 3).map fun c => String.mk [c])
  | _ => .error ⟨"TypeError", "unhashable type: slice"⟩

/-- Python `exp += tail` for the value held in `experiment_for_tomorrow`: string
concatenation on a str, character-wise extension on a list (Python
`list += str` extends with the characters), `TypeError` otherwise. -/
def appendToExp (exp : Json) (tail : String) : Except PyErr Json :=
  match exp with
  | .str s => .ok (.str (s ++ tail))
  | .arr xs => .ok (.arr (xs ++ tail.data.map fun c => Json.str (String.mk [c])))
  | _ => .error ⟨"TypeError", "unsupported operand types for +="⟩

/-- Lines 150-157: the micro-interventions append.  `data.get(...) or []`
turns a falsy value into `[]`; list items are stringified; a truthy result
is appended to `experiment_for_tomorrow`. -/
def microStep (d : KVs) : Except PyErr KVs :=
  let micro0 :=
    match jLookup d "micro_interventions" with
    | some v => if pyTruthy v then v else Json.arr []
    | none => Json.arr []
  let micro1 :=
    match micro0 with
    | .arr xs => Json.arr (xs.map fun m => match m with | .str s => Json.str s | _ => Json.str (pyStr m))
    | _ => micro0
  if pyTruthy micro1 then
    match microItems3 micro1 with
    | .error e => .error e
    | .ok items =>
      let tail := "\n\nMicro-interventions:\n" ++ joinStr "\n" (items.map fun m => "• " ++ m)
      let exp := (jLookup d "experiment_for_tomorrow").getD (.str "")
      match appendToExp exp tail with
      | .error e => .error e
      | .ok newExp => .ok (jSet d "experiment_for_tomorrow" newExp)
  else .ok d

/-- The complete FULL-path shape normalization, lines 121-157: setdefaults,
dict-to-string flattening, driver normalization, core-bottleneck merge,
micro-interventions append.  Raises (`Except.error`) exactly where the
Python raises; a non-dict `json.loads` result raises `AttributeError` at
the first `setdefault`. -/
def normalizeDaily : Json → Except PyErr Json
  | .obj kvs =>
    match microStep (mergeCore (normDrivers (flattenDictFields (setdefaults kvs)))) with
    | .ok d => .ok (.obj d)
    | .error e => .error e
  | _ => .error ⟨"AttributeError", "object has no attribute setdefault"⟩

/-- The SIMPLIFIED-path normalization, lines 178-184: setdefaults plus the
core-bottleneck merge only. -/
def normalizeRetry : Json → Except PyErr Json
  | .obj kvs =>
    let d := setdefaults kvs
    let core := (jLookup d "core_bottleneck").getD (.str "")
    if pyTruthy core then
      .ok (.obj (jSet d "reflection_summary"
        (.str ("Core bottleneck: " ++ pyStr core ++ "\n\n" ++
          pyStr ((jLookup d "reflection_summary").getD (.str ""))))))
    else .ok (.obj d)
  | _ => .error ⟨"AttributeError", "object has no attribute setdefault"⟩

/-! ## `api/analyze.py`: the degradation controller (`analyze_with_gpt`) -/

/-- Lines 62-69: the result returned when no API key is configured. -/
def fallbackNoKey (transcript : String) : Json :=
  .obj [("reflection_summary",
          .str (pyTake 200 transcript ++ if transcript.length > 200 then "..." else "")),
        ("likely_drivers", .arr [.str "Analysis pending"]),
        ("predicted_impact", .str "—"),
        ("experiment_for_tomorrow", .str "—"),
        ("_error", .str "OPENAI_API_KEY not set in .env")]

/-- Lines 188-194: the result returned when both model attempts raised;
`e` is the exception caught from the FULL attempt. -/
def fallbackError (transcript : String) (e : PyErr) : Json :=
  .obj [("reflection_summary",
          .str (if transcript = "" then "No reflection provided." else pyTake 200 transcript)),
        ("likely_drivers", .arr [.str "Analysis pending"]),
        ("predicted_impact", .str "—"),
        ("experiment_for_tomorrow", .str "—"),
        ("_error", .str (errMsg e))]

/-- FULL attempt: model call + parse outcome, then the rich normalization
(any exception from either is the caught `e` of line 159). -/
def analyzeFull (full : Except PyErr Json) : Except PyErr Json :=
  match full with
  | .ok j => normalizeDaily j
  | .error e => .error e

/-- SIMPLIFIED attempt: retry call + parse outcome, then the retry
normalization (any exception is swallowed at line 186). -/
def analyzeRetryN (retry : Except PyErr Json) : Except PyErr Json :=
  match retry with
  | .ok j => normalizeRetry j
  | .error e => .error e

/-- Function `analyze_with_gpt` from `api/analyze.py`.  `key` is
`api_key or OPENAI_KEY or ""` before the `.strip()`; `full` and `retry`
are the outcomes (parsed JSON value, or raised exception) of the FULL and
SIMPLIFIED model call + `json.loads` steps. -/
def analyze_with_gpt (transcript : String) (key : String)
    (full retry : Except PyErr Json) : Json :=
  if pyStrip key = "" then fallbackNoKey transcript
  else
    match analyzeFull full with
    | .ok d => d
    | .error e =>
      match analyzeRetryN retry with
      | .ok d => d
      | .error _ => fallbackError transcript e

def isErrorE (x : Except PyErr Json) : Bool :=
  match x with
  | .error _ => true
  | .ok _ => false

/-- Both the primary and the retry attempt failed; per the spec, the
missing-credential case counts as a failure of both. -/
def bothAttemptsFailed (key : String) (full retry : Except PyErr Json) : Bool :=
  pyStrip key = "" || (isErrorE (analyzeFull full) && isErrorE (analyzeRetryN retry))

/-! ## `api/weekly-report.py` -/

/-- One stored entry as read by `generate_weekly_report`: the four numeric
fields it aggregates.  `none` models an absent/null field (the code applies
`e.get(field, default) or default`, which also maps a stored `0` to the
default). -/
structure Entry where
  sleep_hours : Option ℚ
  sleep_quality : Option ℚ
  energy : Option ℚ
  deep_work_blocks : Option ℚ

/-- Python `e.get(f, d) or d`: an absent, null or zero value becomes `d`. -/
def orDefault (v : Option ℚ) (d : ℚ) : ℚ :=
  match v with
  | none => d
  | some x => if x = 0 then d else x

/-- Floor of a rational (Python `//`-style floor). -/
def floorQ (q : ℚ) : ℤ := q.num.fdiv (q.den : ℤ)

/-- Python `round(x, 1)`: round half to even at one decimal place (the code
rounds float values; the rational model uses exact half-even rounding). -/
def roundTo1 (x : ℚ) : ℚ :=
  let y := x * 10
  let f := floorQ y
  let frac := y - (f : ℚ)
  let r : ℤ :=
    if frac < 1/2 then f
    else if 1/2 < frac then f + 1
    else if f % 2 = 0 then f else f + 1
  (r : ℚ) / 10

/-- Lines 44-48: the deterministic aggregates computed before the model
call.  The divisor is `n = len(entries)`. -/
def avgSleep (entries : List Entry) : ℚ :=
  roundTo1 ((entries.map fun e => orDefault e.sleep_hours 0).sum / entries.length)

def avgQuality (entries : List Entry) : ℚ :=
  roundTo1 ((entries.map fun e => orDefault e.sleep_quality 3).sum / entries.length)

def avgEnergy (entries : List Entry) : ℚ :=
  roundTo1 ((entries.map fun e => orDefault e.energy 3).sum / entries.length)

def totalBlocks (entries : List Entry) : ℚ :=
  (entries.map fun e => orDefault e.deep_work_blocks 0).sum

/-- The metrics object built from the deterministic aggregates (used both
as the `setdefault` default of line 145 and in the failure result of
line 159). -/
def metricsJson (entries : List Entry) : Json :=
  .obj [("avg_sleep", .num (avgSleep entries)),
        ("avg_sleep_quality", .num (avgQuality entries)),
        ("avg_energy", .num (avgEnergy entries)),
        ("total_deep_work", .num (totalBlocks entries)),
        ("entries_count", .num (entries.length : ℚ))]

/-- Lines 131-137: each weekly list field is rebuilt as a list of strings;
an absent field defaults to `[]` and is therefore added as `[]`; a non-list
value is left unchanged.  Items reuse the daily driver rendering. -/
def normWeeklyListField (d : KVs) (f : String) : KVs :=
  match (jLookup d f).getD (.arr []) with
  | .arr xs => jSet d f (.arr (xs.map fun x => .str (normDriver x)))
  | _ => d

def weeklyListFields : List String :=
  ["recurring_patterns", "top_derailers", "bright_spots", "micro_shifts"]

/-- Lines 127-143: the weekly shape normalization (narrative flattening,
list fields, `weekly_experiment` coercion).  A non-dict `json.loads` result
raises `AttributeError` at the first `data.get`. -/
def weeklyNormalize : Json → Except PyErr Json
  | .obj kvs =>
    let d := flattenDictField kvs "week_narrative"
    let d := weeklyListFields.foldl normWeeklyListField d
    let d :=
      match jLookup d "weekly_experiment" with
      | some (.obj e) => jSet d "weekly_experiment" (.obj e)
      | some (.str s) =>
        jSet d "weekly_experiment"
          (.obj [("focus", .str s), ("protocol", .str ""),
                 ("mechanism", .str ""), ("success_metric", .str "")])
      | _ => d
    .ok (.obj d)
  | _ => .error ⟨"AttributeError", "object has no attribute get"⟩

/-- Model call + `json.loads` outcome followed by the weekly normalization
(everything inside the `try` of lines 101-153). -/
def weeklyAttempt (resp : Except PyErr Json) : Except PyErr Json :=
  match resp with
  | .ok j => weeklyNormalize j
  | .error e => .error e

/-- Function `generate_weekly_report` from `api/weekly-report.py`.  `key` is
`api_key or OPENAI_KEY or ""` before the `.strip()`; `resp` is the outcome
of the model call + `json.loads`.  The outer `Except` carries exceptions
the function itself raises: with an empty entry list the aggregate
computation of line 45 divides by zero before the `try` block. -/
def generate_weekly_report (entries : List Entry) (key : String)
    (resp : Except PyErr Json) : Except PyErr Json :=
  if pyStrip key = "" then
    .ok (.obj [("error", .str "OPENAI_API_KEY not set")])
  else if entries.length = 0 then
    .error ⟨"ZeroDivisionError", "division by zero"⟩
  else
    match weeklyAttempt resp with
    | .ok (.obj d) => .ok (.obj (jSetdefault d "metrics" (metricsJson entries)))
    | .ok j => .ok j
    | .error e =>
      .ok (.obj [("error", .str ("Report generation failed: " ++ errMsg e)),
                 ("metrics", metricsJson entries)])

/-! ## `json.dumps` (the serialization whose embedding in prose the parser
pipeline must recover; default separators and `ensure_ascii` escaping) -/

def hexDigit (n : Nat) : Char :=
  if n < 10 then Char.ofNat (48 + n) else Char.ofNat (87 + n)

def hex4 (n : Nat) : String :=
  String.mk [hexDigit (n / 4096 % 16), hexDigit (n / 256 % 16),
             hexDigit (n / 16 % 16), hexDigit (n % 16)]

/-- JSON string escaping of one character (`ensure_ascii=True`). -/
def escC (c : Char) : String :=
  if c = '"' then "\\\""
  else if c = '\\' then "\\\\"
  else if c = '\n' then "\\n"
  else if c = '\t' then "\\t"
  else if c = '\r' then "\\r"
  else if c = Char.ofNat 8 then "\\b"
  else if c = Char.ofNat 12 then "\\f"
  else if c.toNat < 32 ∨ c.toNat > 126 then "\\u" ++ hex4 c.toNat
  else String.mk [c]

def jsonEscape (s : String) : String := joinStr "" (s.data.map escC)

mutual

/-- Python `json.dumps` with the default `", "` / `": "` separators. -/
def pyDumps : Json → String
  | .null => "null"
  | .bool true => "true"
  | .bool false => "false"
  | .num q => numRepr q
  | .str s => "\"" ++ jsonEscape s ++ "\""
  | .arr xs => "[" ++ pyDumpsList xs ++ "]"
  | .obj kvs => "\x7b" ++ pyDumpsKVs kvs ++ "\x7d"

def pyDumpsList : List Json → String
  | [] => ""
  | [x] => pyDumps x
  | x :: y :: xs => pyDumps x ++ ", " ++ pyDumpsList (y :: xs)

def pyDumpsKVs : List (String × Json) → String
  | [] => ""
  | [(k, v)] => "\"" ++ jsonEscape k ++ "\": " ++ pyDumps v
  | (k, v) :: y :: xs =>
    "\"" ++ jsonEscape k ++ "\": " ++ pyDumps v ++ ", " ++ pyDumpsKVs (y :: xs)

end

/-- The serialization of an object with the most common model-generated
defect: a trailing comma (followed by an optional whitespace run `ws`)
inserted before the final closing brace, as in spec scenario 2. -/
def dumpsFinalTC (kvs : List (String × Json)) (ws : String) : String :=
  "\x7b" ++ pyDumpsKVs kvs ++ "," ++ ws ++ "\x7d"

/-! ## Concrete values used by counterexamples and witnesses -/

/-- A FULL-attempt outcome whose parsed reply carries exactly the sentinel
driver list (a reply the model is free to produce). -/
def fullSentinel : Except PyErr Json :=
  .ok (.obj [("likely_drivers", .arr [.str "Analysis pending"])])

/-- The normalizer input of spec example scenario 3. -/
def coreInput : Json :=
  .obj [("reflection_summary", .str "Did some work."), ("core_bottleneck", .str "Low sleep")]

/-- What `normalizeDaily` actually returns on `coreInput`. -/
def coreMergedResult : KVs :=
  [("reflection_summary", .str "Core bottleneck: Low sleep\n\nDid some work."),
   ("core_bottleneck", .str "Low sleep"),
   ("likely_drivers", .arr []),
   ("predicted_impact", .str ""),
   ("experiment_for_tomorrow", .str "")]

/-- A normalizer input on which the micro-interventions append raises
`TypeError` (`exp` is a number, `micro` a non-empty list). -/
def raisingInput : Json :=
  .obj [("experiment_for_tomorrow", .num 1), ("micro_interventions", .arr [.str "rest"])]

/-- A JSON object whose serialization contains a comma directly before a
closing brace inside a string literal. -/
def jComma : Json := .obj [("a", .str ",\x7d")]

/-- The distinct object the repair step turns `jComma`'s serialization into. -/
def jCommaRepaired : Json := .obj [("a", .str "\x7d")]

/-- A one-entry list for the weekly counterexamples. -/
def entry0 : Entry := ⟨some 7, some 3, some 3, some 1⟩

/-- A weekly model reply that carries its own `metrics` value. -/
def respMetrics : Except PyErr Json := .ok (.obj [("metrics", .num 0)])

/-- A concrete cipher satisfying the fernet contract, for witnesses. -/
def fernetDemo : Fernet :=
  ⟨fun s => String.mk ('E' :: s.data),
   fun s =>
     match s.data with
     | 'E' :: t => .ok (String.mk t)
     | _ => .error ⟨"InvalidToken", ""⟩⟩

/-! ## Shape predicates for the amended normalizer-totality claim -/

/-- The field is absent, a string, or a dict (the two shapes the
string-field flattening handles). -/
def strOrObjB : Option Json → Bool
  | none => true
  | some (.str _) => true
  | some (.obj _) => true
  | _ => false

/-- The field is absent or a list. -/
def arrOrAbsentB : Option Json → Bool
  | none => true
  | some (.arr _) => true
  | _ => false

/-- Field `micro_interventions` is absent, a list, or falsy. -/
def microOkB : Option Json → Bool
  | none => true
  | some (.arr _) => true
  | some v => !pyTruthy v

/-- The input shapes under which the daily normalizer is total and
produces correctly-typed fields. -/
def wellShapedB (kvs : KVs) : Bool :=
  strOrObjB (jLookup kvs "reflection_summary") &&
  strOrObjB (jLookup kvs "predicted_impact") &&
  strOrObjB (jLookup kvs "experiment_for_tomorrow") &&
  arrOrAbsentB (jLookup kvs "likely_drivers") &&
  microOkB (jLookup kvs "micro_interventions")

/-! # Claims -/

/-- C9: `validate_date` returns the trimmed input exactly when the trimmed
input matches the four-digits, hyphen, two-digits, hyphen, two-digits
shape, and `None` otherwise (including non-string input); no calendar
validation is performed, so `"2026-13-99"` is accepted. -/
theorem validate_date_spec :
    (∀ s : String, validate_date (.str s) =
      if dateShape (pyStrip s).data then some (pyStrip s) else none)
    ∧ validate_date .other = none
    ∧ validate_date (.str "2026-13-99") = some "2026-13-99"
    ∧ validate_date (.str "not-a-date") = none := by
  refine ⟨fun s => ?_, rfl, by decide, by decide⟩
  by_cases h : s = ""
  · subst h; decide
  · simp [validate_date, h]

/-- C10: `decrypt` undoes `encrypt` for every string whether or not a key
is configured (given the cipher's decrypt-inverts-encrypt contract and
non-empty tokens), and `decrypt` is total: it returns its input unchanged
on empty input, when no key is configured, and on input the cipher cannot
decrypt. -/
theorem encrypt_decrypt_roundtrip :
    (∀ (cfg : Option Fernet) (s : String),
      (∀ f, cfg = some f → f.dec (f.enc s) = .ok s ∧ f.enc s ≠ "") →
      decrypt cfg (encrypt cfg s) = s)
    ∧ (∀ cfg, decrypt cfg "" = "")
    ∧ (∀ t, decrypt none t = t)
    ∧ (∀ (f : Fernet) (t : String) (e : PyErr),
        f.dec t = .error e → decrypt (some f) t = t) := by
  refine ⟨?_, ?_, ?_, ?_⟩
  · intro cfg s h
    match cfg with
    | none =>
      by_cases hs : s = "" <;> simp [encrypt, decrypt, hs]
    | some f =>
      obtain ⟨hinv, hne⟩ := h f rfl
      by_cases hs : s = ""
      · simp [encrypt, decrypt, hs]
      · simp [encrypt, decrypt, hs, hne, hinv]
  · intro cfg; simp [decrypt]
  · intro t; by_cases ht : t = "" <;> simp [decrypt, ht]
  · intro f t e hdec
    by_cases ht : t = "" <;> simp [decrypt, ht, hdec]

/-- Witness for C10 at a concrete cipher and string. -/
theorem encrypt_decrypt_roundtrip_w :
    decrypt (some fernetDemo) (encrypt (some fernetDemo) "hello") = "hello" :=
  encrypt_decrypt_roundtrip.1 (some fernetDemo) "hello"
    (fun f hf => by cases hf; exact ⟨rfl, by decide⟩)

/-- C6 counterexample: the claim as stated fails on the raw transcript.
`" nice day "` has raw length 10 and no keyword, yet the gate returns
`None` (the code measures the stripped transcript, length 9 < 10 here);
`"WORKED ON THE THING."` has length 20 and contains no (lower-case)
keyword, yet the gate does not return the energy question (the code
matches keywords case-insensitively and finds `"work"`). -/
theorem input_gate_cx :
    (" nice day ".length = 10
      ∧ energyKeywords.all (fun w => !containsSub " nice day " w) = true
      ∧ check_missing_answer " nice day " "" (.error ⟨"E", ""⟩) = none
      ∧ check_missing_answer " nice day " "sk" (.ok "Was it fun?") = none)
    ∧ ("WORKED ON THE THING.".length = 20
      ∧ energyKeywords.all (fun w => !containsSub "WORKED ON THE THING." w) = true
      ∧ check_missing_answer "WORKED ON THE THING." "" (.error ⟨"E", ""⟩) = none) := by
  decide

/-- C6 (amended): for every transcript whose stripped form has length in
`[10, 80)` and whose lower-cased stripped form contains none of the fixed
energy/focus keywords, the Input Gate returns exactly the literal
question, regardless of the key and of the model outcome. -/
theorem input_gate_short_question (transcript key : String) (gpt : Except PyErr String)
    (h10 : 10 ≤ (pyStrip transcript).length)
    (h80 : (pyStrip transcript).length < 80)
    (hkw : energyKeywords.all (fun w => !containsSub (pyLower (pyStrip transcript)) w) = true) :
    check_missing_answer transcript key gpt = some "How was your energy and focus today?" := by
  have hne : ¬(pyStrip transcript = "" ∨ (pyStrip transcript).length < 10) := by
    rintro (h | h)
    · rw [h] at h10; simp at h10
    · omega
  simp only [check_missing_answer]
  rw [if_neg hne, if_pos ⟨h80, hkw⟩]

/-- Witness for the amended C6 at a concrete transcript. -/
theorem input_gate_short_question_w :
    check_missing_answer "felt fine this morning" "sk-abc" (.ok "NONE") =
      some "How was your energy and focus today?" :=
  input_gate_short_question "felt fine this morning" "sk-abc" (.ok "NONE")
    (by decide) (by decide) (by decide)

/-- C1 counterexample: the sentinel is not equivalent to failure.  With a
key configured and a FULL reply that parses to a mapping whose
`likely_drivers` is exactly `["Analysis pending"]`, neither attempt
failed, yet the returned `likely_drivers` equals the sentinel: the
exact-match test fires on a successful analysis. -/
theorem sentinel_not_iff_cx :
    bothAttemptsFailed "k" fullSentinel (.ok (.obj [])) = false
    ∧ jGet (analyze_with_gpt "today" "k" fullSentinel (.ok (.obj []))) "likely_drivers" =
        some (.arr [.str "Analysis pending"]) :=
  ⟨by decide, rfl⟩

/-- C1 (amended): the forward direction holds — whenever both the FULL and
the SIMPLIFIED attempts failed (a missing credential counting as failure of
both), the returned `likely_drivers` equals exactly `["Analysis pending"]`.
The converse does not (see the counterexample). -/
theorem sentinel_on_total_failure (transcript key : String) (full retry : Except PyErr Json)
    (h : bothAttemptsFailed key full retry = true) :
    jGet (analyze_with_gpt transcript key full retry) "likely_drivers" =
      some (.arr [.str "Analysis pending"]) := by
  have h' := h
  rw [bothAttemptsFailed] at h'
  rw [analyze_with_gpt]
  by_cases hk : pyStrip key = ""
  · rw [if_pos hk]; simp [fallbackNoKey, jGet, jLookup]
  · rw [if_neg hk]
    simp only [hk, decide_False, Bool.false_or, Bool.and_eq_true] at h'
    obtain ⟨hf, hr⟩ := h'
    cases hfe : analyzeFull full with
    | ok d => rw [hfe] at hf; simp [isErrorE] at hf
    | error e =>
      cases hre : analyzeRetryN retry with
      | ok d => rw [hre] at hr; simp [isErrorE] at hr
      | error e2 => simp [fallbackError, jGet, jLookup]

/-- Witness for the amended C1: both attempts fail concretely. -/
theorem sentinel_on_total_failure_w :
    jGet (analyze_with_gpt "fine" "" (.error ⟨"AuthenticationError", "no key"⟩)
      (.error ⟨"AuthenticationError", "no key"⟩)) "likely_drivers" =
      some (.arr [.str "Analysis pending"]) :=
  sentinel_on_total_failure "fine" "" (.error ⟨"AuthenticationError", "no key"⟩)
    (.error ⟨"AuthenticationError", "no key"⟩) (by decide)

/-- C5 counterexample: the claim's fallback shape is wrong for the
missing-credential case, which it explicitly includes.  With no key and an
empty transcript the code returns `reflection_summary = ""` (not the
literal `"No reflection provided."`) and `_error` is the fixed
configuration message, not an exception type and message. -/
theorem fallback_shape_cx :
    bothAttemptsFailed "" (.error ⟨"APIError", "boom"⟩) (.error ⟨"APIError", "boom"⟩) = true
    ∧ jGet (analyze_with_gpt "" "" (.error ⟨"APIError", "boom"⟩) (.error ⟨"APIError", "boom"⟩))
        "reflection_summary" = some (.str "")
    ∧ (Json.str "" = Json.str "No reflection provided." → False)
    ∧ jGet (analyze_with_gpt "" "" (.error ⟨"APIError", "boom"⟩) (.error ⟨"APIError", "boom"⟩))
        "_error" = some (.str "OPENAI_API_KEY not set in .env") := by
  refine ⟨by decide, rfl, by simp, rfl⟩

/-- C5 (amended): when both model attempts raise, the fallback is exactly
as claimed, with `_error` carrying the FULL attempt's exception type and
message; when no credential is configured, the result instead appends
`"..."` to transcripts longer than 200 characters, leaves an empty
transcript as the empty summary, and sets `_error` to the fixed
configuration message. -/
theorem fallback_result_exact :
    (∀ (transcript key : String) (full retry : Except PyErr Json) (e : PyErr),
      pyStrip key ≠ "" → analyzeFull full = .error e →
      isErrorE (analyzeRetryN retry) = true →
      analyze_with_gpt transcript key full retry =
        .obj [("reflection_summary",
                .str (if transcript = "" then "No reflection provided." else pyTake 200 transcript)),
              ("likely_drivers", .arr [.str "Analysis pending"]),
              ("predicted_impact", .str "—"),
              ("experiment_for_tomorrow", .str "—"),
              ("_error", .str (errMsg e))])
    ∧ (∀ (transcript key : String) (full retry : Except PyErr Json),
      pyStrip key = "" →
      analyze_with_gpt transcript key full retry =
        .obj [("reflection_summary",
                .str (pyTake 200 transcript ++ if transcript.length > 200 then "..." else "")),
              ("likely_drivers", .arr [.str "Analysis pending"]),
              ("predicted_impact", .str "—"),
              ("experiment_for_tomorrow", .str "—"),
              ("_error", .str "OPENAI_API_KEY not set in .env")]) := by
  constructor
  · intro transcript key full retry e hk hf hr
    rw [analyze_with_gpt, if_neg hk, hf]
    cases hre : analyzeRetryN retry with
    | ok d => rw [hre] at hr; simp [isErrorE] at hr
    | error e2 => rfl
  · intro transcript key full retry hk
    rw [analyze_with_gpt, if_pos hk]; rfl

/-- Witness for the amended C5: both conjuncts at concrete inputs. -/
theorem fallback_result_exact_w :
    analyze_with_gpt "slept badly" "sk" (.error ⟨"APIError", "boom"⟩)
        (.error ⟨"Timeout", "slow"⟩) =
      .obj [("reflection_summary", .str (if "slept badly" = "" then "No reflection provided."
                                         else pyTake 200 "slept badly")),
            ("likely_drivers", .arr [.str "Analysis pending"]),
            ("predicted_impact", .str "—"),
            ("experiment_for_tomorrow", .str "—"),
            ("_error", .str (errMsg ⟨"APIError", "boom"⟩))] :=
  fallback_result_exact.1 "slept badly" "sk" (.error ⟨"APIError", "boom"⟩)
    (.error ⟨"Timeout", "slow"⟩) ⟨"APIError", "boom"⟩ (by decide) rfl rfl

/-- C7 counterexample: on the spec's own scenario-3 input the merge happens
as described, but the separate `core_bottleneck` field is NOT discarded:
it is still present in the returned mapping. -/
theorem core_not_discarded_cx :
    normalizeDaily coreInput = .ok (.obj coreMergedResult)
    ∧ jLookup coreMergedResult "core_bottleneck" = some (.str "Low sleep") :=
  ⟨rfl, rfl⟩

/-- Unfolding helper: the daily normalizer on a dict whose pipeline
succeeds. -/
theorem normalizeDaily_obj_ok (kvs d : KVs)
    (h : microStep (mergeCore (normDrivers (flattenDictFields (setdefaults kvs)))) = .ok d) :
    normalizeDaily (.obj kvs) = .ok (.obj d) := by
  unfold normalizeDaily
  simp only [h]


/-- Lookup after concatenation of association lists. -/
theorem jLookup_append (a b : KVs) (k : String) :
    jLookup (a ++ b) k =
      match jLookup a k with
      | some v => some v
      | none => jLookup b k := by
  induction a with
  | nil => simp [jLookup]
  | cons x t ih =>
    obtain ⟨kx, vx⟩ := x
    by_cases hk : kx = k <;> simp [jLookup, hk, ih]

/-- Setdefault semantics at the defaulted key: the stored value wins, the
default fills only an absent key. -/
theorem jLookup_jSetdefault_self (d : KVs) (k : String) (v : Json) :
    jLookup (jSetdefault d k v) k = some ((jLookup d k).getD v) := by
  rw [jSetdefault]
  cases h : jLookup d k with
  | some w => simp [h]
  | none => simp [jLookup_append, h, jLookup]

/-- C2 counterexample: `metrics` is installed with `setdefault`, not an
overwrite.  When the model reply itself carries a `metrics` value, that
model-supplied value is kept verbatim, and it differs from the
deterministically computed aggregate object. -/
theorem weekly_metrics_cx :
    generate_weekly_report [entry0] "k" respMetrics =
      .ok (.obj [("metrics", .num 0), ("recurring_patterns", .arr []),
                 ("top_derailers", .arr []), ("bright_spots", .arr []),
                 ("micro_shifts", .arr [])])
    ∧ jLookup [("metrics", Json.num 0), ("recurring_patterns", Json.arr []),
               ("top_derailers", Json.arr []), ("bright_spots", Json.arr []),
               ("micro_shifts", Json.arr [])] "metrics" = some (.num 0)
    ∧ (∀ q : ℚ, metricsJson [entry0] ≠ .num q) := by
  refine ⟨rfl, rfl, fun q h => ?_⟩
  simp [metricsJson] at h

/-- C2 (amended): the deterministically precomputed aggregates are the
DEFAULT for `metrics`, installed only when the model reply omits the key;
a model-supplied `metrics` value is preserved unchanged (and on the
failure path the computed metrics are used, see the C8 theorem). -/
theorem weekly_metrics_setdefault (entries : List Entry) (key : String)
    (resp : Except PyErr Json) (d : KVs)
    (hk : pyStrip key ≠ "") (hn : entries.length ≠ 0)
    (ha : weeklyAttempt resp = .ok (.obj d)) :
    generate_weekly_report entries key resp =
      .ok (.obj (jSetdefault d "metrics" (metricsJson entries)))
    ∧ jLookup (jSetdefault d "metrics" (metricsJson entries)) "metrics" =
        some ((jLookup d "metrics").getD (metricsJson entries)) := by
  constructor
  · rw [generate_weekly_report, if_neg hk, if_neg hn, ha]
  · exact jLookup_jSetdefault_self d "metrics" (metricsJson entries)

/-- Witness for the amended C2: a reply without `metrics` gets the
computed aggregates. -/
theorem weekly_metrics_setdefault_w :
    generate_weekly_report [entry0] "k" (.ok (.obj [])) =
      .ok (.obj (jSetdefault [("recurring_patterns", Json.arr []),
        ("top_derailers", Json.arr []), ("bright_spots", Json.arr []),
        ("micro_shifts", Json.arr [])] "metrics" (metricsJson [entry0])))
    ∧ jLookup (jSetdefault [("recurring_patterns", Json.arr []),
        ("top_derailers", Json.arr []), ("bright_spots", Json.arr []),
        ("micro_shifts", Json.arr [])] "metrics" (metricsJson [entry0])) "metrics" =
      some ((jLookup [("recurring_patterns", Json.arr []),
        ("top_derailers", Json.arr []), ("bright_spots", Json.arr []),
        ("micro_shifts", Json.arr [])] "metrics").getD (metricsJson [entry0])) :=
  weekly_metrics_setdefault [entry0] "k" (.ok (.obj []))
    [("recurring_patterns", Json.arr []), ("top_derailers", Json.arr []),
     ("bright_spots", Json.arr []), ("micro_shifts", Json.arr [])]
    (by decide) (by decide) rfl

/-- C8 counterexample: with no credential configured,
`generate_weekly_report` returns only the error — its result carries no
`metrics` field at all (the claim includes this case). -/
theorem weekly_nokey_cx :
    generate_weekly_report [entry0] "" (.error ⟨"APIError", "x"⟩) =
      .ok (.obj [("error", .str "OPENAI_API_KEY not set")])
    ∧ jGet (.obj [("error", Json.str "OPENAI_API_KEY not set")]) "metrics" = none :=
  ⟨rfl, rfl⟩

/-- C8 (amended): when the model call, parse or normalization raises (with
a credential configured and a non-empty entry list), the error-carrying
result is still populated with the deterministically computed `metrics`;
the missing-credential case instead returns a bare error without metrics
(see the counterexample). -/
theorem weekly_error_metrics (entries : List Entry) (key : String)
    (resp : Except PyErr Json) (e : PyErr)
    (hk : pyStrip key ≠ "") (hn : entries.length ≠ 0)
    (ha : weeklyAttempt resp = .error e) :
    generate_weekly_report entries key resp =
      .ok (.obj [("error", .str ("Report generation failed: " ++ errMsg e)),
                 ("metrics", metricsJson entries)]) := by
  rw [generate_weekly_report, if_neg hk, if_neg hn, ha]

/-- Witness for the amended C8 at a concrete failing call. -/
theorem weekly_error_metrics_w :
    generate_weekly_report [entry0] "k" (.error ⟨"APIError", "boom"⟩) =
      .ok (.obj [("error", .str ("Report generation failed: " ++ errMsg ⟨"APIError", "boom"⟩)),
                 ("metrics", metricsJson [entry0])]) :=
  weekly_error_metrics [entry0] "k" (.error ⟨"APIError", "boom"⟩) ⟨"APIError", "boom"⟩
    (by decide) (by decide) rfl

/-- C3 counterexample: the normalizer guarantees only four keys, not six
(the empty mapping yields a result with neither `core_bottleneck` nor
`micro_interventions`), and it is not total: a non-string
`experiment_for_tomorrow` together with a non-empty `micro_interventions`
list raises `TypeError`. -/
theorem normalizer_total_cx :
    normalizeDaily (.obj []) =
      .ok (.obj [("reflection_summary", .str ""), ("likely_drivers", .arr []),
                 ("predicted_impact", .str ""), ("experiment_for_tomorrow", .str "")])
    ∧ jLookup [("reflection_summary", Json.str ""), ("likely_drivers", Json.arr []),
               ("predicted_impact", Json.str ""), ("experiment_for_tomorrow", Json.str "")]
        "core_bottleneck" = none
    ∧ jLookup [("reflection_summary", Json.str ""), ("likely_drivers", Json.arr []),
               ("predicted_impact", Json.str ""), ("experiment_for_tomorrow", Json.str "")]
        "micro_interventions" = none
    ∧ normalizeDaily raisingInput = .error ⟨"TypeError", "unsupported operand types for +="⟩ :=
  ⟨rfl, rfl, rfl, rfl⟩

/-! Lookup-tracking lemmas for the amended normalizer-totality claim. -/

theorem jLookup_jSet_self (d : KVs) (k : String) (v : Json) :
    jLookup (jSet d k v) k = some v := by
  induction d with
  | nil => simp [jSet, jLookup]
  | cons x t ih =>
    obtain ⟨kx, vx⟩ := x
    by_cases hk : kx = k
    · subst hk; simp [jSet, jLookup]
    · simp [jSet, jLookup, hk, ih]

theorem jLookup_jSet_other (d : KVs) (k : String) (v : Json) (k2 : String) (h : k2 ≠ k) :
    jLookup (jSet d k v) k2 = jLookup d k2 := by
  induction d with
  | nil => simp [jSet, jLookup, Ne.symm h]
  | cons x t ih =>
    obtain ⟨kx, vx⟩ := x
    by_cases hk : kx = k
    · subst hk
      simp [jSet, jLookup, Ne.symm h]
    · by_cases h2 : kx = k2
      · subst h2; simp [jSet, jLookup, hk]
      · simp [jSet, jLookup, hk, h2, ih]

theorem jLookup_jSetdefault_other (d : KVs) (k : String) (v : Json) (k2 : String)
    (h : k2 ≠ k) : jLookup (jSetdefault d k v) k2 = jLookup d k2 := by
  rw [jSetdefault]
  cases hl : jLookup d k with
  | some w => rfl
  | none =>
    rw [jLookup_append]
    cases h2 : jLookup d k2 with
    | some w => rfl
    | none => simp [jLookup, Ne.symm h]

theorem flattenDictField_lookup_other (d : KVs) (f k : String) (h : k ≠ f) :
    jLookup (flattenDictField d f) k = jLookup d k := by
  rw [flattenDictField]
  cases hf : jLookup d f with
  | none => rfl
  | some v => cases v <;> simp [jLookup_jSet_other _ _ _ _ h]

theorem flattenDictField_lookup_self (d : KVs) (f : String) (v : Json)
    (hp : jLookup d f = some v) (hw : strOrObjB (some v) = true) :
    ∃ s, jLookup (flattenDictField d f) f = some (Json.str s) := by
  rw [flattenDictField, hp]
  cases v with
  | str s => exact ⟨s, hp⟩
  | obj kv => exact ⟨_, jLookup_jSet_self d f _⟩
  | null => simp [strOrObjB] at hw
  | bool b => simp [strOrObjB] at hw
  | num q => simp [strOrObjB] at hw
  | arr xs => simp [strOrObjB] at hw

theorem getD_strOrObj (o : Option Json) (h : strOrObjB o = true) :
    strOrObjB (some (o.getD (.str ""))) = true := by
  cases o with
  | none => rfl
  | some v => exact h

theorem getD_arr_of_arrOrAbsent (o : Option Json) (h : arrOrAbsentB o = true) :
    ∃ xs, o.getD (.arr []) = Json.arr xs := by
  cases o with
  | none => exact ⟨[], rfl⟩
  | some v =>
    cases v with
    | arr xs => exact ⟨xs, rfl⟩
    | null => simp [arrOrAbsentB] at h
    | bool b => simp [arrOrAbsentB] at h
    | num q => simp [arrOrAbsentB] at h
    | str s => simp [arrOrAbsentB] at h
    | obj kv => simp [arrOrAbsentB] at h

theorem setdefaults_lookup (kvs : KVs) :
    jLookup (setdefaults kvs) "reflection_summary" =
      some ((jLookup kvs "reflection_summary").getD (.str ""))
    ∧ jLookup (setdefaults kvs) "likely_drivers" =
      some ((jLookup kvs "likely_drivers").getD (.arr []))
    ∧ jLookup (setdefaults kvs) "predicted_impact" =
      some ((jLookup kvs "predicted_impact").getD (.str ""))
    ∧ jLookup (setdefaults kvs) "experiment_for_tomorrow" =
      some ((jLookup kvs "experiment_for_tomorrow").getD (.str ""))
    ∧ (∀ k, k ≠ "reflection_summary" → k ≠ "likely_drivers" → k ≠ "predicted_impact" →
        k ≠ "experiment_for_tomorrow" → jLookup (setdefaults kvs) k = jLookup kvs k) := by
  refine ⟨?_, ?_, ?_, ?_, ?_⟩
  · rw [setdefaults, jLookup_jSetdefault_other _ _ _ _ (by decide),
      jLookup_jSetdefault_other _ _ _ _ (by decide),
      jLookup_jSetdefault_other _ _ _ _ (by decide), jLookup_jSetdefault_self]
  · rw [setdefaults, jLookup_jSetdefault_other _ _ _ _ (by decide),
      jLookup_jSetdefault_other _ _ _ _ (by decide), jLookup_jSetdefault_self,
      jLookup_jSetdefault_other _ _ _ _ (by decide)]
  · rw [setdefaults, jLookup_jSetdefault_other _ _ _ _ (by decide), jLookup_jSetdefault_self,
      jLookup_jSetdefault_other _ _ _ _ (by decide),
      jLookup_jSetdefault_other _ _ _ _ (by decide)]
  · rw [setdefaults, jLookup_jSetdefault_self,
      jLookup_jSetdefault_other _ _ _ _ (by decide),
      jLookup_jSetdefault_other _ _ _ _ (by decide),
      jLookup_jSetdefault_other _ _ _ _ (by decide)]
  · intro k h1 h2 h3 h4
    rw [setdefaults, jLookup_jSetdefault_other _ _ _ _ h4,
      jLookup_jSetdefault_other _ _ _ _ h3, jLookup_jSetdefault_other _ _ _ _ h2,
      jLookup_jSetdefault_other _ _ _ _ h1]

theorem normDrivers_eq (d : KVs) (xs : List Json)
    (h : jLookup d "likely_drivers" = some (.arr xs)) :
    normDrivers d = jSet d "likely_drivers" (.arr (xs.map fun x => .str (normDriver x))) := by
  rw [normDrivers, h]
  rfl

theorem mergeCore_shape (d : KVs) (s : String)
    (hrs : jLookup d "reflection_summary" = some (.str s)) :
    ∃ out, mergeCore d = out
      ∧ (∀ k, k ≠ "reflection_summary" → jLookup out k = jLookup d k)
      ∧ ∃ s2, jLookup out "reflection_summary" = some (.str s2) := by
  simp only [mergeCore]
  cases ht : pyTruthy ((jLookup d "core_bottleneck").getD (.str "")) with
  | false => exact ⟨d, by simp [ht], fun k _ => rfl, ⟨s, hrs⟩⟩
  | true =>
    refine ⟨jSet d "reflection_summary" (Json.str ("Core bottleneck: " ++
        pyStr ((jLookup d "core_bottleneck").getD (Json.str "")) ++ "\n\n" ++
        pyStr ((jLookup d "reflection_summary").getD (Json.str "")))),
      by simp [ht], fun k hk => jLookup_jSet_other _ _ _ _ hk,
      ⟨_, jLookup_jSet_self _ _ _⟩⟩

theorem microStep_shape (d : KVs) (s : String)
    (hmic : microOkB (jLookup d "micro_interventions") = true)
    (he : jLookup d "experiment_for_tomorrow" = some (.str s)) :
    ∃ out, microStep d = .ok out
      ∧ (∀ k, k ≠ "experiment_for_tomorrow" → jLookup out k = jLookup d k)
      ∧ ∃ s2, jLookup out "experiment_for_tomorrow" = some (.str s2) := by
  cases hm : jLookup d "micro_interventions" with
  | none =>
    refine ⟨d, ?_, fun k _ => rfl, ⟨s, he⟩⟩
    rw [microStep, hm]
    rfl
  | some v =>
    rw [hm] at hmic
    cases v with
    | arr xs =>
      cases xs with
      | nil =>
        refine ⟨d, ?_, fun k _ => rfl, ⟨s, he⟩⟩
        rw [microStep, hm]
        rfl
      | cons x xs2 =>
        refine ⟨jSet d "experiment_for_tomorrow" (Json.str (s ++
            ("\n\nMicro-interventions:\n" ++ joinStr "\n"
              (((((x :: xs2).map fun m =>
                    match m with
                    | Json.str s3 => Json.str s3
                    | _ => Json.str (pyStr m)).take 3).map pyStr).map
                fun m => "• " ++ m)))),
          ?_, fun k hk => jLookup_jSet_other _ _ _ _ hk,
          ⟨_, jLookup_jSet_self _ _ _⟩⟩
        rw [microStep, hm, he]
        rfl
    | null =>
      refine ⟨d, ?_, fun k _ => rfl, ⟨s, he⟩⟩
      rw [microStep, hm]
      rfl
    | bool b =>
      have hb : b = false := by simpa [microOkB, pyTruthy] using hmic
      subst hb
      refine ⟨d, ?_, fun k _ => rfl, ⟨s, he⟩⟩
      rw [microStep, hm]
      rfl
    | num q =>
      have hq : q = 0 := by simpa [microOkB, pyTruthy] using hmic
      subst hq
      refine ⟨d, ?_, fun k _ => rfl, ⟨s, he⟩⟩
      simp [microStep, hm, pyTruthy]
    | str st =>
      have hst : st = "" := by simpa [microOkB, pyTruthy] using hmic
      subst hst
      refine ⟨d, ?_, fun k _ => rfl, ⟨s, he⟩⟩
      rw [microStep, hm]
      rfl
    | obj kv =>
      cases kv with
      | nil =>
        refine ⟨d, ?_, fun k _ => rfl, ⟨s, he⟩⟩
        rw [microStep, hm]
        rfl
      | cons y ys => simp [microOkB, pyTruthy] at hmic

/-- C3 (amended): for any mapping whose `reflection_summary`,
`predicted_impact` and `experiment_for_tomorrow` (when present) are
strings or dicts, whose `likely_drivers` (when present) is a list
(possibly mixing strings and keyed mappings), and whose
`micro_interventions` (when present) is a list or falsy, the normalizer
never raises and returns a mapping containing the FOUR guaranteed keys
with correctly-typed values: the three string fields are strings and
`likely_drivers` is a list of strings.  (`core_bottleneck` and
`micro_interventions` are not part of the guaranteed key set, and inputs
outside these shapes can raise — see the counterexample.) -/
theorem normalize_total_wellShaped (kvs : KVs) (hw : wellShapedB kvs = true) :
    ∃ out : KVs, normalizeDaily (.obj kvs) = .ok (.obj out)
      ∧ (∃ s, jLookup out "reflection_summary" = some (Json.str s))
      ∧ (∃ s, jLookup out "predicted_impact" = some (Json.str s))
      ∧ (∃ s, jLookup out "experiment_for_tomorrow" = some (Json.str s))
      ∧ (∃ ss : List String, jLookup out "likely_drivers" = some (Json.arr (ss.map Json.str))) := by
  rw [wellShapedB] at hw
  simp only [Bool.and_eq_true] at hw
  obtain ⟨⟨⟨⟨hwrs, hwpi⟩, hweft⟩, hwld⟩, hwmic⟩ := hw
  obtain ⟨hrs0, hld0, hpi0, heft0, hoth0⟩ := setdefaults_lookup kvs
  have hfd : flattenDictFields (setdefaults kvs) =
      flattenDictField (flattenDictField (flattenDictField
        (flattenDictField (setdefaults kvs) "reflection_summary") "predicted_impact")
        "experiment_for_tomorrow") "core_bottleneck" := rfl
  obtain ⟨srs, hrs1⟩ := flattenDictField_lookup_self (setdefaults kvs) "reflection_summary"
    _ hrs0 (getD_strOrObj _ hwrs)
  have hrsF : jLookup (flattenDictFields (setdefaults kvs)) "reflection_summary" =
      some (Json.str srs) := by
    rw [hfd, flattenDictField_lookup_other _ _ _ (by decide),
      flattenDictField_lookup_other _ _ _ (by decide),
      flattenDictField_lookup_other _ _ _ (by decide)]
    exact hrs1
  have hpi0b : jLookup (flattenDictField (setdefaults kvs) "reflection_summary")
      "predicted_impact" = some ((jLookup kvs "predicted_impact").getD (Json.str "")) := by
    rw [flattenDictField_lookup_other _ _ _ (by decide)]; exact hpi0
  obtain ⟨spi, hpi1⟩ := flattenDictField_lookup_self _ "predicted_impact" _ hpi0b
    (getD_strOrObj _ hwpi)
  have hpiF : jLookup (flattenDictFields (setdefaults kvs)) "predicted_impact" =
      some (Json.str spi) := by
    rw [hfd, flattenDictField_lookup_other _ _ _ (by decide),
      flattenDictField_lookup_other _ _ _ (by decide)]
    exact hpi1
  have heft0b : jLookup (flattenDictField (flattenDictField (setdefaults kvs)
      "reflection_summary") "predicted_impact") "experiment_for_tomorrow" =
      some ((jLookup kvs "experiment_for_tomorrow").getD (Json.str "")) := by
    rw [flattenDictField_lookup_other _ _ _ (by decide),
      flattenDictField_lookup_other _ _ _ (by decide)]
    exact heft0
  obtain ⟨seft, heft1⟩ := flattenDictField_lookup_self _ "experiment_for_tomorrow" _ heft0b
    (getD_strOrObj _ hweft)
  have heftF : jLookup (flattenDictFields (setdefaults kvs)) "experiment_for_tomorrow" =
      some (Json.str seft) := by
    rw [hfd, flattenDictField_lookup_other _ _ _ (by decide)]
    exact heft1
  obtain ⟨xs, hxs⟩ := getD_arr_of_arrOrAbsent _ hwld
  have hldF : jLookup (flattenDictFields (setdefaults kvs)) "likely_drivers" =
      some (Json.arr xs) := by
    rw [hfd, flattenDictField_lookup_other _ _ _ (by decide),
      flattenDictField_lookup_other _ _ _ (by decide),
      flattenDictField_lookup_other _ _ _ (by decide),
      flattenDictField_lookup_other _ _ _ (by decide), hld0, hxs]
  have hmicF : jLookup (flattenDictFields (setdefaults kvs)) "micro_interventions" =
      jLookup kvs "micro_interventions" := by
    rw [hfd, flattenDictField_lookup_other _ _ _ (by decide),
      flattenDictField_lookup_other _ _ _ (by decide),
      flattenDictField_lookup_other _ _ _ (by decide),
      flattenDictField_lookup_other _ _ _ (by decide)]
    exact hoth0 _ (by decide) (by decide) (by decide) (by decide)
  have hd2 := normDrivers_eq _ xs hldF
  have hrs2 : jLookup (normDrivers (flattenDictFields (setdefaults kvs)))
      "reflection_summary" = some (Json.str srs) := by
    rw [hd2, jLookup_jSet_other _ _ _ _ (by decide)]; exact hrsF
  have hpi2 : jLookup (normDrivers (flattenDictFields (setdefaults kvs)))
      "predicted_impact" = some (Json.str spi) := by
    rw [hd2, jLookup_jSet_other _ _ _ _ (by decide)]; exact hpiF
  have heft2 : jLookup (normDrivers (flattenDictFields (setdefaults kvs)))
      "experiment_for_tomorrow" = some (Json.str seft) := by
    rw [hd2, jLookup_jSet_other _ _ _ _ (by decide)]; exact heftF
  have hmic2 : jLookup (normDrivers (flattenDictFields (setdefaults kvs)))
      "micro_interventions" = jLookup kvs "micro_interventions" := by
    rw [hd2, jLookup_jSet_other _ _ _ _ (by decide)]; exact hmicF
  have hld2 : jLookup (normDrivers (flattenDictFields (setdefaults kvs)))
      "likely_drivers" = some (Json.arr (xs.map fun x => Json.str (normDriver x))) := by
    rw [hd2]; exact jLookup_jSet_self _ _ _
  obtain ⟨d3, hd3, hpres3, srs3, hrs3⟩ := mergeCore_shape _ srs hrs2
  have hpi3 : jLookup d3 "predicted_impact" = some (Json.str spi) := by
    rw [hpres3 _ (by decide)]; exact hpi2
  have heft3 : jLookup d3 "experiment_for_tomorrow" = some (Json.str seft) := by
    rw [hpres3 _ (by decide)]; exact heft2
  have hld3 : jLookup d3 "likely_drivers" =
      some (Json.arr (xs.map fun x => Json.str (normDriver x))) := by
    rw [hpres3 _ (by decide)]; exact hld2
  have hmic3 : microOkB (jLookup d3 "micro_interventions") = true := by
    rw [hpres3 _ (by decide), hmic2]; exact hwmic
  obtain ⟨out, hstep, hpres4, seft4, heft4⟩ := microStep_shape d3 seft hmic3 heft3
  have hfinal : microStep (mergeCore (normDrivers (flattenDictFields (setdefaults kvs)))) =
      .ok out := by rw [hd3]; exact hstep
  refine ⟨out, normalizeDaily_obj_ok kvs out hfinal, ⟨srs3, ?_⟩, ⟨spi, ?_⟩,
    ⟨seft4, heft4⟩, ⟨xs.map normDriver, ?_⟩⟩
  · rw [hpres4 _ (by decide)]; exact hrs3
  · rw [hpres4 _ (by decide)]; exact hpi3
  · rw [hpres4 _ (by decide), hld3, List.map_map]; rfl

/-- Witness for the amended C3: a mapping whose `likely_drivers` mixes a
string and a keyed mapping. -/
theorem normalize_total_wellShaped_w :
    wellShapedB [("likely_drivers", Json.arr [Json.str "a", Json.obj [("k", Json.str "v")]])] = true
    ∧ (∃ out : KVs,
        normalizeDaily (.obj [("likely_drivers", Json.arr [Json.str "a",
          Json.obj [("k", Json.str "v")]])]) = .ok (.obj out)
        ∧ (∃ s, jLookup out "reflection_summary" = some (Json.str s))
        ∧ (∃ s, jLookup out "predicted_impact" = some (Json.str s))
        ∧ (∃ s, jLookup out "experiment_for_tomorrow" = some (Json.str s))
        ∧ (∃ ss : List String, jLookup out "likely_drivers" = some (Json.arr (ss.map Json.str)))) :=
  ⟨by decide, normalize_total_wellShaped
    [("likely_drivers", Json.arr [Json.str "a", Json.obj [("k", Json.str "v")]])] (by decide)⟩

/-- Flattening a string-expected field that already holds a string is the
identity on the whole mapping. -/
theorem flattenDictField_eq_of_str (d : KVs) (f : String) (s : String)
    (h : jLookup d f = some (Json.str s)) : flattenDictField d f = d := by
  rw [flattenDictField, h]

/-- Merging a non-empty string `core_bottleneck` into a string
`reflection_summary` is exactly the prefixed `jSet`. -/
theorem mergeCore_eq_of_str (d : KVs) (c s : String)
    (hcore : jLookup d "core_bottleneck" = some (Json.str c)) (hc : c ≠ "")
    (hs : jLookup d "reflection_summary" = some (Json.str s)) :
    mergeCore d = jSet d "reflection_summary"
      (Json.str ("Core bottleneck: " ++ c ++ "\n\n" ++ s)) := by
  have ht : pyTruthy (Json.str c) = true := by simp [pyTruthy, hc]
  simp only [mergeCore, hcore, hs, Option.getD_some]
  rw [if_pos ht]
  rfl

/-- C7 (amended): for any response mapping within the shapes the
normalizer handles (the same conditions as the totality claim:
`reflection_summary`, `predicted_impact`, `experiment_for_tomorrow`
strings or dicts when present, `likely_drivers` a list when present,
`micro_interventions` a list or falsy when present) whose
`core_bottleneck` is a non-empty string and whose `reflection_summary`
is a string (or absent, defaulting to the empty string), the normalizer
sets `reflection_summary` to exactly the `"Core bottleneck: "` prefix,
the bottleneck text, two newlines and the original summary — and the
separate `core_bottleneck` field REMAINS in the result, unchanged, after
the merge. -/
theorem core_merge_retained (kvs : KVs) (c s : String)
    (hw : wellShapedB kvs = true)
    (hcore : jLookup kvs "core_bottleneck" = some (Json.str c)) (hc : c ≠ "")
    (hsum : (jLookup kvs "reflection_summary").getD (Json.str "") = Json.str s) :
    ∃ out : KVs, normalizeDaily (.obj kvs) = .ok (.obj out)
      ∧ jLookup out "reflection_summary" =
          some (Json.str ("Core bottleneck: " ++ c ++ "\n\n" ++ s))
      ∧ jLookup out "core_bottleneck" = some (Json.str c) := by
  rw [wellShapedB] at hw
  simp only [Bool.and_eq_true] at hw
  obtain ⟨⟨⟨⟨hwrs, hwpi⟩, hweft⟩, hwld⟩, hwmic⟩ := hw
  obtain ⟨hrs0, hld0, hpi0, heft0, hoth0⟩ := setdefaults_lookup kvs
  have hcore0 : jLookup (setdefaults kvs) "core_bottleneck" = some (Json.str c) := by
    rw [hoth0 _ (by decide) (by decide) (by decide) (by decide)]; exact hcore
  have hrs0s : jLookup (setdefaults kvs) "reflection_summary" = some (Json.str s) := by
    rw [hrs0, hsum]
  have hfl1 : flattenDictField (setdefaults kvs) "reflection_summary" = setdefaults kvs :=
    flattenDictField_eq_of_str _ _ _ hrs0s
  have hcore2 : jLookup (flattenDictField (flattenDictField
      (flattenDictField (setdefaults kvs) "reflection_summary") "predicted_impact")
      "experiment_for_tomorrow") "core_bottleneck" = some (Json.str c) := by
    rw [flattenDictField_lookup_other _ _ _ (by decide),
      flattenDictField_lookup_other _ _ _ (by decide), hfl1]
    exact hcore0
  have hfl4 : flattenDictFields (setdefaults kvs) =
      flattenDictField (flattenDictField (flattenDictField (setdefaults kvs)
        "reflection_summary") "predicted_impact") "experiment_for_tomorrow" := by
    have hfd : flattenDictFields (setdefaults kvs) =
        flattenDictField (flattenDictField (flattenDictField
          (flattenDictField (setdefaults kvs) "reflection_summary") "predicted_impact")
          "experiment_for_tomorrow") "core_bottleneck" := rfl
    rw [hfd, flattenDictField_eq_of_str _ _ _ hcore2]
  have hrsF : jLookup (flattenDictFields (setdefaults kvs)) "reflection_summary" =
      some (Json.str s) := by
    rw [hfl4, flattenDictField_lookup_other _ _ _ (by decide),
      flattenDictField_lookup_other _ _ _ (by decide), hfl1]
    exact hrs0s
  have hcoreF : jLookup (flattenDictFields (setdefaults kvs)) "core_bottleneck" =
      some (Json.str c) := by
    rw [hfl4]; exact hcore2
  have heft0b : jLookup (flattenDictField (flattenDictField (setdefaults kvs)
      "reflection_summary") "predicted_impact") "experiment_for_tomorrow" =
      some ((jLookup kvs "experiment_for_tomorrow").getD (Json.str "")) := by
    rw [flattenDictField_lookup_other _ _ _ (by decide), hfl1]
    exact heft0
  obtain ⟨seft, heft1⟩ := flattenDictField_lookup_self _ "experiment_for_tomorrow" _ heft0b
    (getD_strOrObj _ hweft)
  have heftF : jLookup (flattenDictFields (setdefaults kvs)) "experiment_for_tomorrow" =
      some (Json.str seft) := by
    rw [hfl4]; exact heft1
  obtain ⟨xs, hxs⟩ := getD_arr_of_arrOrAbsent _ hwld
  have hldF : jLookup (flattenDictFields (setdefaults kvs)) "likely_drivers" =
      some (Json.arr xs) := by
    rw [hfl4, flattenDictField_lookup_other _ _ _ (by decide),
      flattenDictField_lookup_other _ _ _ (by decide), hfl1, hld0, hxs]
  have hmicF : jLookup (flattenDictFields (setdefaults kvs)) "micro_interventions" =
      jLookup kvs "micro_interventions" := by
    rw [hfl4, flattenDictField_lookup_other _ _ _ (by decide),
      flattenDictField_lookup_other _ _ _ (by decide), hfl1]
    exact hoth0 _ (by decide) (by decide) (by decide) (by decide)
  have hd2 := normDrivers_eq _ xs hldF
  have hrs2 : jLookup (normDrivers (flattenDictFields (setdefaults kvs)))
      "reflection_summary" = some (Json.str s) := by
    rw [hd2, jLookup_jSet_other _ _ _ _ (by decide)]; exact hrsF
  have hcore2b : jLookup (normDrivers (flattenDictFields (setdefaults kvs)))
      "core_bottleneck" = some (Json.str c) := by
    rw [hd2, jLookup_jSet_other _ _ _ _ (by decide)]; exact hcoreF
  have heft2 : jLookup (normDrivers (flattenDictFields (setdefaults kvs)))
      "experiment_for_tomorrow" = some (Json.str seft) := by
    rw [hd2, jLookup_jSet_other _ _ _ _ (by decide)]; exact heftF
  have hmic2 : jLookup (normDrivers (flattenDictFields (setdefaults kvs)))
      "micro_interventions" = jLookup kvs "micro_interventions" := by
    rw [hd2, jLookup_jSet_other _ _ _ _ (by decide)]; exact hmicF
  have hd3 := mergeCore_eq_of_str _ c s hcore2b hc hrs2
  have hrs3 : jLookup (jSet (normDrivers (flattenDictFields (setdefaults kvs)))
      "reflection_summary" (Json.str ("Core bottleneck: " ++ c ++ "\n\n" ++ s)))
      "reflection_summary" =
      some (Json.str ("Core bottleneck: " ++ c ++ "\n\n" ++ s)) :=
    jLookup_jSet_self _ _ _
  have hcore3 : jLookup (jSet (normDrivers (flattenDictFields (setdefaults kvs)))
      "reflection_summary" (Json.str ("Core bottleneck: " ++ c ++ "\n\n" ++ s)))
      "core_bottleneck" = some (Json.str c) := by
    rw [jLookup_jSet_other _ _ _ _ (by decide)]; exact hcore2b
  have heft3 : jLookup (jSet (normDrivers (flattenDictFields (setdefaults kvs)))
      "reflection_summary" (Json.str ("Core bottleneck: " ++ c ++ "\n\n" ++ s)))
      "experiment_for_tomorrow" = some (Json.str seft) := by
    rw [jLookup_jSet_other _ _ _ _ (by decide)]; exact heft2
  have hmic3 : microOkB (jLookup (jSet (normDrivers (flattenDictFields (setdefaults kvs)))
      "reflection_summary" (Json.str ("Core bottleneck: " ++ c ++ "\n\n" ++ s)))
      "micro_interventions") = true := by
    rw [jLookup_jSet_other _ _ _ _ (by decide), hmic2]; exact hwmic
  obtain ⟨out, hstep, hpres4, seft4, heft4⟩ := microStep_shape _ seft hmic3 heft3
  refine ⟨out, normalizeDaily_obj_ok kvs out (by rw [hd3]; exact hstep), ?_, ?_⟩
  · rw [hpres4 _ (by decide)]; exact hrs3
  · rw [hpres4 _ (by decide)]; exact hcore3

/-- Witness for the amended C7 at the spec scenario-3 mapping. -/
theorem core_merge_retained_w :
    ∃ out : KVs,
      normalizeDaily (.obj [("reflection_summary", Json.str "Did some work."),
        ("core_bottleneck", Json.str "Low sleep")]) = .ok (.obj out)
      ∧ jLookup out "reflection_summary" =
          some (Json.str ("Core bottleneck: " ++ "Low sleep" ++ "\n\n" ++ "Did some work."))
      ∧ jLookup out "core_bottleneck" = some (Json.str "Low sleep") :=
  core_merge_retained
    [("reflection_summary", Json.str "Did some work."),
     ("core_bottleneck", Json.str "Low sleep")]
    "Low sleep" "Did some work." (by decide) rfl (by decide) rfl

/-- C4 counterexample: the trailing-comma repair mangles a string literal
that contains a comma before a closing brace, so repairing the
already-clean serialization of `jComma` yields the serialization of the
DIFFERENT object `jCommaRepaired` (idempotence on clean JSON fails);
prose containing braces defeats the first-`{`/last-`}` slice; a
triple-backtick run in the prose before the object makes the fence
handler keep the wrong segment; and a triple-backtick run inside a string
literal of a fenced object truncates the body at that run. -/
theorem parser_roundtrip_cx :
    extractJson (pyDumps jComma) = pyDumps jCommaRepaired
    ∧ pyDumps jComma ≠ pyDumps jCommaRepaired
    ∧ extractJson ("see \x7bthis\x7d first: " ++ pyDumps (Json.obj [("a", Json.str "1")])) ≠
        pyDumps (Json.obj [("a", Json.str "1")])
    ∧ extractJson ("```x``` " ++ pyDumps (Json.obj [("a", Json.str "1")])) ≠
        pyDumps (Json.obj [("a", Json.str "1")])
    ∧ extractJson ("```json\n" ++ pyDumps (Json.obj [("a", Json.str "``` tricky")]) ++ "\n```") ≠
        pyDumps (Json.obj [("a", Json.str "``` tricky")]) := by
  exact ⟨by decide, by decide, by decide, by decide, by decide⟩

/-! Pipeline lemmas for the amended parser round-trip claim. -/

theorem dropWhile_append_cons (p : Char → Bool) (a : List Char) (c : Char) (r : List Char)
    (hc : p c = false) :
    (a ++ c :: r).dropWhile p = a.dropWhile p ++ c :: r := by
  induction a with
  | nil => simp [List.dropWhile_cons, hc]
  | cons x t ih => by_cases hx : p x <;> simp [List.dropWhile_cons, hx, ih]

theorem pyStripL_embed (a m b : List Char) :
    pyStripL (a ++ ((lbrace :: (m ++ [rbrace])) ++ b)) =
      (a.dropWhile isPyWs) ++ ((lbrace :: (m ++ [rbrace])) ++ (b.reverse.dropWhile isPyWs).reverse) := by
  rw [pyStripL]
  have h1 : (a ++ ((lbrace :: (m ++ [rbrace])) ++ b)).dropWhile isPyWs =
      (a.dropWhile isPyWs) ++ ((lbrace :: (m ++ [rbrace])) ++ b) := by
    have h := dropWhile_append_cons isPyWs a lbrace ((m ++ [rbrace]) ++ b) (by decide)
    simpa [List.append_assoc] using h
  rw [h1]
  have h2 : ((a.dropWhile isPyWs) ++ ((lbrace :: (m ++ [rbrace])) ++ b)).reverse =
      b.reverse ++ (rbrace :: (m.reverse ++ (lbrace :: (a.dropWhile isPyWs).reverse))) := by
    simp [List.reverse_append, List.append_assoc]
  rw [h2, dropWhile_append_cons isPyWs b.reverse rbrace _ (by decide)]
  simp [List.reverse_append, List.append_assoc]

theorem startsWith3_false (a r : List Char) (ha : backtickC ∉ a) :
    startsWithL (a ++ (lbrace :: r)) [backtickC, backtickC, backtickC] = false := by
  cases a with
  | nil =>
    have h0 : (decide (lbrace = backtickC)) = false := by decide
    simp [startsWithL, h0]
  | cons x t =>
    have hx : ¬x = backtickC := fun hh => ha (hh ▸ List.mem_cons_self x t)
    have h0 : (decide (x = backtickC)) = false := by simp [hx]
    simp [startsWithL, h0]

theorem stripFence_id (l : List Char)
    (h : startsWithL l [backtickC, backtickC, backtickC] = false) :
    stripFence l = l := by
  simp [stripFence, h]

theorem findIdxC_append_none (p : Char → Bool) (a l2 : List Char)
    (h : ∀ c ∈ a, p c = false) :
    findIdxC p (a ++ l2) = (findIdxC p l2).map (· + a.length) := by
  induction a with
  | nil => cases hf : findIdxC p l2 <;> simp [hf]
  | cons x t ih =>
    have hx := h x (List.mem_cons_self x t)
    rw [List.cons_append, findIdxC]
    rw [if_neg (by simp [hx]), ih (fun c hc => h c (List.mem_cons_of_mem x hc))]
    cases hf : findIdxC p l2
    · simp [hf]
    · simp [hf]
      omega

theorem braceSlice_embed (a m b : List Char) (ha : lbrace ∉ a) (hb : rbrace ∉ b) :
    braceSlice (a ++ ((lbrace :: (m ++ [rbrace])) ++ b)) = lbrace :: (m ++ [rbrace]) := by
  have hamem : ∀ c ∈ a, (decide (c = lbrace)) = false := by
    intro c hc
    simp only [decide_eq_false_iff_not]
    rintro rfl
    exact ha hc
  have hbmem : ∀ c ∈ b.reverse, (decide (c = rbrace)) = false := by
    intro c hc
    simp only [decide_eq_false_iff_not]
    rintro rfl
    exact hb (List.mem_reverse.mp hc)
  have hfind : findIdxC (· = lbrace) (a ++ ((lbrace :: (m ++ [rbrace])) ++ b)) =
      some a.length := by
    rw [findIdxC_append_none _ _ _ hamem]
    rw [show ((lbrace :: (m ++ [rbrace])) ++ b) = lbrace :: ((m ++ [rbrace]) ++ b) from rfl]
    rw [findIdxC, if_pos (by simp)]
    simp
  have hrev : (a ++ ((lbrace :: (m ++ [rbrace])) ++ b)).reverse =
      b.reverse ++ (rbrace :: (m.reverse ++ (lbrace :: a.reverse))) := by
    simp [List.reverse_append, List.append_assoc]
  have hrfind : findIdxC (· = rbrace) (a ++ ((lbrace :: (m ++ [rbrace])) ++ b)).reverse =
      some b.length := by
    rw [hrev, findIdxC_append_none _ _ _ hbmem, findIdxC, if_pos (by simp)]
    simp
  have hlen : (a ++ ((lbrace :: (m ++ [rbrace])) ++ b)).length =
      a.length + (m.length + 2) + b.length := by
    simp [List.length_append]
    omega
  simp only [braceSlice, hfind, hrfind]
  rw [if_pos (by omega)]
  have hassoc : a ++ ((lbrace :: (m ++ [rbrace])) ++ b) =
      (a ++ (lbrace :: (m ++ [rbrace]))) ++ b := by
    simp [List.append_assoc]
  have he : (a ++ ((lbrace :: (m ++ [rbrace])) ++ b)).length - b.length =
      (a ++ (lbrace :: (m ++ [rbrace]))).length := by
    simp [List.length_append] at hlen ⊢
    omega
  rw [he, hassoc, List.take_left]
  have hd : a.length = (a : List Char).length := rfl
  rw [show (a ++ (lbrace :: (m ++ [rbrace]))).drop a.length = lbrace :: (m ++ [rbrace]) from
    List.drop_left a (lbrace :: (m ++ [rbrace]))]

theorem extract_embedded (a m b : List Char)
    (ha1 : lbrace ∉ a) (ha2 : backtickC ∉ a) (hb : rbrace ∉ b)
    (hfix1 : fixComma rbrace (lbrace :: (m ++ [rbrace])) = lbrace :: (m ++ [rbrace]))
    (hfix2 : fixComma ']' (lbrace :: (m ++ [rbrace])) = lbrace :: (m ++ [rbrace])) :
    extractJsonL (a ++ ((lbrace :: (m ++ [rbrace])) ++ b)) = lbrace :: (m ++ [rbrace]) := by
  have ha1' : lbrace ∉ a.dropWhile isPyWs :=
    fun hc => ha1 ((List.dropWhile_sublist isPyWs).subset hc)
  have ha2' : backtickC ∉ a.dropWhile isPyWs :=
    fun hc => ha2 ((List.dropWhile_sublist isPyWs).subset hc)
  have hb' : rbrace ∉ (b.reverse.dropWhile isPyWs).reverse :=
    fun hc => hb (List.mem_reverse.mp ((List.dropWhile_sublist isPyWs).subset
      (List.mem_reverse.mp hc)))
  have hsw : startsWithL ((a.dropWhile isPyWs) ++
      ((lbrace :: (m ++ [rbrace])) ++ (b.reverse.dropWhile isPyWs).reverse))
      [backtickC, backtickC, backtickC] = false :=
    startsWith3_false (a.dropWhile isPyWs)
      ((m ++ [rbrace]) ++ (b.reverse.dropWhile isPyWs).reverse) ha2'
  rw [extractJsonL, pyStripL_embed a m b, stripFence_id _ hsw,
    braceSlice_embed _ m _ ha1' hb', hfix1, hfix2]


/-! Step equations and fuel lemmas for the trailing-comma repair scan. -/

theorem fixCommaF_nil (c : Char) (n : Nat) : fixCommaF c n [] = [] := by
  cases n <;> rfl

theorem fixCommaF_cons_other (c ch : Char) (m : Nat) (rest : List Char) (hch : ch ≠ ',') :
    fixCommaF c (m + 1) (ch :: rest) = ch :: fixCommaF c m rest := by
  simp [fixCommaF, hch]

theorem fixCommaF_cons_comma_match (c : Char) (m : Nat) (rest : List Char) (rest2 : List Char)
    (h : rest.drop (wsRunLen rest) = c :: rest2) :
    fixCommaF c (m + 1) (',' :: rest) = c :: fixCommaF c m rest2 := by
  simp [fixCommaF, h]

theorem fixCommaF_cons_comma_nomatch (c : Char) (m : Nat) (rest : List Char)
    (c2 : Char) (rest2 : List Char)
    (h : rest.drop (wsRunLen rest) = c2 :: rest2) (hc2 : c2 ≠ c) :
    fixCommaF c (m + 1) (',' :: rest) = ',' :: fixCommaF c m rest := by
  simp [fixCommaF, h, hc2]

theorem fixCommaF_cons_comma_nil (c : Char) (m : Nat) (rest : List Char)
    (h : rest.drop (wsRunLen rest) = []) :
    fixCommaF c (m + 1) (',' :: rest) = ',' :: rest := by
  simp [fixCommaF, h]

theorem takeWhile_append_all (p : Char → Bool) (w : List Char) (c : Char) (y : List Char)
    (hw : ∀ ch ∈ w, p ch = true) (hc : p c = false) :
    (w ++ c :: y).takeWhile p = w := by
  induction w with
  | nil => simp [List.takeWhile_cons, hc]
  | cons a t ih =>
    have ha := hw a (List.mem_cons_self a t)
    simp [List.takeWhile_cons, ha, ih (fun ch hch => hw ch (List.mem_cons_of_mem a hch))]

theorem takeWhile_append_stop (p : Char → Bool) (x y : List Char)
    (hx : ∃ a ∈ x, p a = false) :
    (x ++ y).takeWhile p = x.takeWhile p := by
  induction x with
  | nil => obtain ⟨a, ha, _⟩ := hx; simp at ha
  | cons a t ih =>
    cases hpa : p a with
    | true =>
      have ht : ∃ b ∈ t, p b = false := by
        obtain ⟨b, hb, hpb⟩ := hx
        rcases List.mem_cons.mp hb with rfl | hbt
        · rw [hpa] at hpb; cases hpb
        · exact ⟨b, hbt, hpb⟩
      simp [List.takeWhile_cons, hpa, ih ht]
    | false => simp [List.takeWhile_cons, hpa]

theorem takeWhile_length_lt (p : Char → Bool) (x : List Char)
    (hx : ∃ a ∈ x, p a = false) :
    (x.takeWhile p).length < x.length := by
  induction x with
  | nil => obtain ⟨a, ha, _⟩ := hx; simp at ha
  | cons a t ih =>
    cases hpa : p a with
    | true =>
      have ht : ∃ b ∈ t, p b = false := by
        obtain ⟨b, hb, hpb⟩ := hx
        rcases List.mem_cons.mp hb with rfl | hbt
        · rw [hpa] at hpb; cases hpb
        · exact ⟨b, hbt, hpb⟩
      simp only [List.takeWhile_cons, hpa, if_true, List.length_cons]
      exact Nat.succ_lt_succ (ih ht)
    | false => simp [List.takeWhile_cons, hpa]

theorem drop_takeWhile_eq_dropWhile (p : Char → Bool) (x : List Char) :
    x.drop ((x.takeWhile p).length) = x.dropWhile p := by
  induction x with
  | nil => rfl
  | cons a t ih =>
    cases hpa : p a with
    | true => simp [List.takeWhile_cons, List.dropWhile_cons, hpa, ih]
    | false => simp [List.takeWhile_cons, List.dropWhile_cons, hpa]

theorem dropWhile_ne_nil_of_exists (p : Char → Bool) (x : List Char)
    (hx : ∃ a ∈ x, p a = false) : x.dropWhile p ≠ [] := by
  intro h
  rw [List.dropWhile_eq_nil_iff] at h
  obtain ⟨a, ha, hpa⟩ := hx
  rw [h a ha] at hpa
  cases hpa

/-- The fuel argument of the scan is irrelevant once it covers the input
length. -/
theorem fixCommaF_congr (c : Char) :
    ∀ (k : Nat) (l : List Char) (n1 n2 : Nat), l.length ≤ k → l.length ≤ n1 →
      l.length ≤ n2 → fixCommaF c n1 l = fixCommaF c n2 l := by
  intro k
  induction k with
  | zero =>
    intro l n1 n2 hk _ _
    have hl : l = [] := List.length_eq_zero.mp (Nat.le_zero.mp hk)
    subst hl
    rw [fixCommaF_nil, fixCommaF_nil]
  | succ k ih =>
    intro l n1 n2 hk h1 h2
    match l with
    | [] => rw [fixCommaF_nil, fixCommaF_nil]
    | ch :: rest =>
      have hr : rest.length ≤ k := by simp at hk; omega
      obtain ⟨m1, rfl⟩ : ∃ m1, n1 = m1 + 1 := ⟨n1 - 1, by simp at h1; omega⟩
      obtain ⟨m2, rfl⟩ : ∃ m2, n2 = m2 + 1 := ⟨n2 - 1, by simp at h2; omega⟩
      have hm1 : rest.length ≤ m1 := by simp at h1; omega
      have hm2 : rest.length ≤ m2 := by simp at h2; omega
      by_cases hch : ch = ','
      · subst hch
        cases hdrop : rest.drop (wsRunLen rest) with
        | nil => rw [fixCommaF_cons_comma_nil c m1 rest hdrop,
            fixCommaF_cons_comma_nil c m2 rest hdrop]
        | cons c2 rest2 =>
          have hr2 : rest2.length < rest.length := by
            have := List.length_drop (wsRunLen rest) rest
            rw [hdrop] at this
            simp at this
            omega
          by_cases hc2 : c2 = c
          · rw [hc2] at hdrop
            rw [fixCommaF_cons_comma_match c m1 rest rest2 hdrop,
              fixCommaF_cons_comma_match c m2 rest rest2 hdrop,
              ih rest2 m1 m2 (by omega) (by omega) (by omega)]
          · rw [fixCommaF_cons_comma_nomatch c m1 rest c2 rest2 hdrop hc2,
              fixCommaF_cons_comma_nomatch c m2 rest c2 rest2 hdrop hc2,
              ih rest m1 m2 hr hm1 hm2]
      · rw [fixCommaF_cons_other c ch m1 rest hch, fixCommaF_cons_other c ch m2 rest hch,
          ih rest m1 m2 hr hm1 hm2]

/-- The scan never lengthens its input. -/
theorem fixCommaF_length_le (c : Char) :
    ∀ (n : Nat) (l : List Char), (fixCommaF c n l).length ≤ l.length := by
  intro n
  induction n with
  | zero => intro l; rfl
  | succ m ih =>
    intro l
    match l with
    | [] => rw [fixCommaF_nil]
    | ch :: rest =>
      by_cases hch : ch = ','
      · subst hch
        cases hdrop : rest.drop (wsRunLen rest) with
        | nil => rw [fixCommaF_cons_comma_nil c m rest hdrop]
        | cons c2 rest2 =>
          have hr2 : rest2.length < rest.length := by
            have := List.length_drop (wsRunLen rest) rest
            rw [hdrop] at this
            simp at this
            omega
          by_cases hc2 : c2 = c
          · rw [hc2] at hdrop
            rw [fixCommaF_cons_comma_match c m rest rest2 hdrop]
            have := ih rest2
            simp
            omega
          · rw [fixCommaF_cons_comma_nomatch c m rest c2 rest2 hdrop hc2]
            have := ih rest
            simp
            omega
      · rw [fixCommaF_cons_other c ch m rest hch]
        have := ih rest
        simp
        omega

/-- A dangling comma (followed only by whitespace and the closer) is
always repaired, so the scan strictly shortens such an input. -/
theorem fixCommaF_strict (c : Char) (hc : isPyWs c = false) :
    ∀ (k : Nat) (p w : List Char) (n : Nat), (∀ ch ∈ w, isPyWs ch = true) →
      p.length ≤ k → (p ++ ',' :: (w ++ [c])).length ≤ n →
      (fixCommaF c n (p ++ ',' :: (w ++ [c]))).length < (p ++ ',' :: (w ++ [c])).length := by
  intro k
  induction k with
  | zero =>
    intro p w n hw hk hn
    have hp : p = [] := List.length_eq_zero.mp (Nat.le_zero.mp hk)
    subst hp
    obtain ⟨m, rfl⟩ : ∃ m, n = m + 1 := ⟨n - 1, by simp at hn; omega⟩
    have hdrop : (w ++ [c]).drop (wsRunLen (w ++ [c])) = c :: [] := by
      rw [wsRunLen, takeWhile_append_all isPyWs w c [] hw hc, List.drop_left]
    simp only [List.nil_append]
    rw [fixCommaF_cons_comma_match c m (w ++ [c]) [] hdrop, fixCommaF_nil]
    simp
  | succ k ih =>
    intro p w n hw hk hn
    match p with
    | [] =>
      obtain ⟨m, rfl⟩ : ∃ m, n = m + 1 := ⟨n - 1, by simp at hn; omega⟩
      have hdrop : (w ++ [c]).drop (wsRunLen (w ++ [c])) = c :: [] := by
        rw [wsRunLen, takeWhile_append_all isPyWs w c [] hw hc, List.drop_left]
      simp only [List.nil_append]
      rw [fixCommaF_cons_comma_match c m (w ++ [c]) [] hdrop, fixCommaF_nil]
      simp
    | ch :: p' =>
      obtain ⟨m, rfl⟩ : ∃ m, n = m + 1 := ⟨n - 1, by simp at hn; omega⟩
      have hp'k : p'.length ≤ k := by simp at hk; omega
      have hrest : ((ch :: p') ++ ',' :: (w ++ [c])) = ch :: (p' ++ ',' :: (w ++ [c])) := rfl
      have hlenrest : (p' ++ ',' :: (w ++ [c])).length ≤ m := by
        simp at hn ⊢
        omega
      by_cases hch : ch = ','
      · subst hch
        cases hdrop : (p' ++ ',' :: (w ++ [c])).drop
            (wsRunLen (p' ++ ',' :: (w ++ [c]))) with
        | nil =>
          exfalso
          rw [wsRunLen, drop_takeWhile_eq_dropWhile] at hdrop
          have : (',' : Char) ∈ p' ++ ',' :: (w ++ [c]) := by simp
          rw [List.dropWhile_eq_nil_iff] at hdrop
          have := hdrop _ this
          simp [isPyWs] at this
        | cons c2 rest2 =>
          have hr2 : rest2.length < (p' ++ ',' :: (w ++ [c])).length := by
            have := List.length_drop (wsRunLen (p' ++ ',' :: (w ++ [c])))
              (p' ++ ',' :: (w ++ [c]))
            rw [hdrop] at this
            simp at this ⊢
            omega
          by_cases hc2 : c2 = c
          · rw [hc2] at hdrop
            rw [hrest, fixCommaF_cons_comma_match c m _ rest2 hdrop]
            have := fixCommaF_length_le c m rest2
            simp at hr2 ⊢
            omega
          · rw [hrest, fixCommaF_cons_comma_nomatch c m _ c2 rest2 hdrop hc2]
            have := ih p' w m hw hp'k hlenrest
            simp
            simp at this
            omega
      · rw [hrest, fixCommaF_cons_other c ch m _ hch]
        have := ih p' w m hw hp'k hlenrest
        simp
        simp at this
        omega

/-- If the repair leaves `p ++ [c]` unchanged, `p` cannot end in a comma
followed only by whitespace. -/
theorem noDangle_of_fix_eq (c : Char) (hc : isPyWs c = false) (p : List Char)
    (h : fixComma c (p ++ [c]) = p ++ [c]) :
    ∀ q w, p = q ++ ',' :: w → ∃ ch ∈ w, isPyWs ch = false := by
  intro q w hqw
  by_contra hno
  push_neg at hno
  have hallws : ∀ ch ∈ w, isPyWs ch = true := by
    intro ch hch
    have := hno ch hch
    revert this
    cases isPyWs ch <;> simp
  have hshape : p ++ [c] = q ++ ',' :: (w ++ [c]) := by
    rw [hqw]; simp
  have hstrict := fixCommaF_strict c hc q.length q w (p ++ [c]).length hallws le_rfl
    (by rw [hshape])
  rw [← hshape] at hstrict
  rw [fixComma] at h
  rw [h] at hstrict
  exact lt_irrefl _ hstrict

/-- The repair scan distributes over an append when every comma in the
prefix is followed by some non-whitespace character still inside the
prefix (so no whitespace run started at a comma crosses the seam). -/
theorem fixComma_append (c : Char) :
    ∀ (k : Nat) (x y : List Char), x.length ≤ k →
      (∀ q w, x = q ++ ',' :: w → ∃ ch ∈ w, isPyWs ch = false) →
      fixComma c (x ++ y) = fixComma c x ++ fixComma c y := by
  intro k
  induction k with
  | zero =>
    intro x y hk hnd
    have hx : x = [] := List.length_eq_zero.mp (Nat.le_zero.mp hk)
    subst hx
    rfl
  | succ k ih =>
    intro x y hk hnd
    match x with
    | [] => rfl
    | ch :: x' =>
      have hx'k : x'.length ≤ k := by simp at hk; omega
      by_cases hch : ch = ','
      · subst hch
        obtain ⟨d0, hd0mem, hd0⟩ := hnd [] x' rfl
        have hex : ∃ a ∈ x', isPyWs a = false := ⟨d0, hd0mem, hd0⟩
        have hwseq : wsRunLen (x' ++ y) = wsRunLen x' := by
          rw [wsRunLen, wsRunLen, takeWhile_append_stop isPyWs x' y hex]
        have hwslt : wsRunLen x' < x'.length := by
          rw [wsRunLen]
          exact takeWhile_length_lt isPyWs x' hex
        cases hdt : x'.dropWhile isPyWs with
        | nil => exact absurd hdt (dropWhile_ne_nil_of_exists isPyWs x' hex)
        | cons d tail =>
          have hxdrop : x'.drop (wsRunLen x') = d :: tail := by
            rw [wsRunLen, drop_takeWhile_eq_dropWhile, hdt]
          have hxydrop : (x' ++ y).drop (wsRunLen (x' ++ y)) = d :: (tail ++ y) := by
            rw [hwseq, List.drop_append_eq_append_drop, hxdrop,
              Nat.sub_eq_zero_of_le (le_of_lt hwslt), List.drop_zero]
            rfl
          obtain ⟨tw, htw⟩ : ∃ tw, x' = tw ++ d :: tail := by
            refine ⟨x'.takeWhile isPyWs, ?_⟩
            rw [← hdt]
            exact (List.takeWhile_append_dropWhile isPyWs x').symm
          have hlen_eq : x'.length = tw.length + (tail.length + 1) := by
            rw [htw]
            simp
          have htail_k : tail.length ≤ k := by omega
          have htail_nd : ∀ q w, tail = q ++ ',' :: w → ∃ e ∈ w, isPyWs e = false := by
            intro q w hqw
            apply hnd (',' :: (tw ++ d :: q)) w
            rw [htw, hqw]
            simp
          have htx : tail.length ≤ x'.length := by omega
          by_cases hd : d = c
          · rw [hd] at hxdrop hxydrop
            have hL : fixComma c ((',' :: x') ++ y) =
                c :: fixCommaF c (x' ++ y).length (tail ++ y) :=
              fixCommaF_cons_comma_match c (x' ++ y).length (x' ++ y) (tail ++ y) hxydrop
            have hR : fixComma c (',' :: x') = c :: fixCommaF c x'.length tail :=
              fixCommaF_cons_comma_match c x'.length x' tail hxdrop
            have hfuelL : fixCommaF c (x' ++ y).length (tail ++ y) = fixComma c (tail ++ y) :=
              fixCommaF_congr c (tail ++ y).length (tail ++ y) (x' ++ y).length
                (tail ++ y).length le_rfl (by simp; omega) le_rfl
            have hfuelR : fixCommaF c x'.length tail = fixComma c tail :=
              fixCommaF_congr c tail.length tail x'.length tail.length le_rfl htx le_rfl
            rw [hL, hfuelL, ih tail y htail_k htail_nd, hR, hfuelR]
            rfl
          · have hx'nd : ∀ q w, x' = q ++ ',' :: w → ∃ e ∈ w, isPyWs e = false := by
              intro q w hqw
              apply hnd (',' :: q) w
              rw [hqw]
              rfl
            have hL : fixComma c ((',' :: x') ++ y) = ',' :: fixComma c (x' ++ y) :=
              fixCommaF_cons_comma_nomatch c (x' ++ y).length (x' ++ y) d (tail ++ y)
                hxydrop hd
            have hR : fixComma c (',' :: x') = ',' :: fixComma c x' :=
              fixCommaF_cons_comma_nomatch c x'.length x' d tail hxdrop hd
            rw [hL, ih x' y hx'k hx'nd, hR]
            rfl
      · have hx'nd : ∀ q w, x' = q ++ ',' :: w → ∃ e ∈ w, isPyWs e = false := by
          intro q w hqw
          apply hnd (ch :: q) w
          rw [hqw]
          rfl
        have hL : fixComma c ((ch :: x') ++ y) = ch :: fixComma c (x' ++ y) :=
          fixCommaF_cons_other c ch (x' ++ y).length (x' ++ y) hch
        have hR : fixComma c (ch :: x') = ch :: fixComma c x' :=
          fixCommaF_cons_other c ch x'.length x' hch
        rw [hL, ih x' y hx'k hx'nd, hR]
        rfl

/-- A comma followed only by whitespace and the closer is collapsed to
the bare closer. -/
theorem fixComma_comma_ws_close (c : Char) (hc : isPyWs c = false) (w : List Char)
    (hw : ∀ ch ∈ w, isPyWs ch = true) :
    fixComma c (',' :: (w ++ [c])) = [c] := by
  have hdrop : (w ++ [c]).drop (wsRunLen (w ++ [c])) = c :: [] := by
    rw [wsRunLen, takeWhile_append_all isPyWs w c [] hw hc, List.drop_left]
  have h : fixComma c (',' :: (w ++ [c])) = c :: fixCommaF c (w ++ [c]).length [] :=
    fixCommaF_cons_comma_match c (w ++ [c]).length (w ++ [c]) [] hdrop
  rw [h, fixCommaF_nil]

/-- A serialization left unchanged by the repair stays recoverable when
the model appends a dangling comma and whitespace before the closer: the
repair deletes exactly that comma and whitespace. -/
theorem tc_repair (c : Char) (hc : isPyWs c = false) (hcc : c ≠ ',') (p w : List Char)
    (hw : ∀ ch ∈ w, isPyWs ch = true)
    (hfix : fixComma c (p ++ [c]) = p ++ [c]) :
    fixComma c (p ++ (',' :: (w ++ [c]))) = p ++ [c] := by
  have hnd := noDangle_of_fix_eq c hc p hfix
  have hsingle : fixComma c [c] = [c] := by
    have h1 : fixComma c [c] = c :: fixCommaF c 0 [] := fixCommaF_cons_other c c 0 [] hcc
    rw [h1, fixCommaF_nil]
  have hsplit1 := fixComma_append c p.length p [c] le_rfl hnd
  rw [hsplit1, hsingle] at hfix
  have hp : fixComma c p = p := List.append_cancel_right hfix
  rw [fixComma_append c p.length p (',' :: (w ++ [c])) le_rfl hnd, hp,
    fixComma_comma_ws_close c hc w hw]

/-- The braced slice with a dangling comma before the final close brace is
repaired by the first regex to the clean serialization. -/
theorem fix_tc (m w : List Char) (hw : ∀ ch ∈ w, isPyWs ch = true)
    (hfix1 : fixComma rbrace (lbrace :: (m ++ [rbrace])) = lbrace :: (m ++ [rbrace])) :
    fixComma rbrace (lbrace :: ((m ++ ',' :: w) ++ [rbrace])) = lbrace :: (m ++ [rbrace]) := by
  have hsh : lbrace :: ((m ++ ',' :: w) ++ [rbrace]) =
      (lbrace :: m) ++ (',' :: (w ++ [rbrace])) := by
    simp
  rw [hsh]
  exact tc_repair rbrace (by decide) (by decide) (lbrace :: m) w hw hfix1

/-- Stripping is the identity on a list with non-whitespace first and last
characters. -/
theorem pyStripL_eq_self (c d : Char) (mid : List Char)
    (hc : isPyWs c = false) (hd : isPyWs d = false) :
    pyStripL (c :: (mid ++ [d])) = c :: (mid ++ [d]) := by
  rw [pyStripL, List.dropWhile_cons, if_neg (by simp [hc])]
  have hr : (c :: (mid ++ [d])).reverse = d :: (mid.reverse ++ [c]) := by
    simp
  rw [hr, List.dropWhile_cons, if_neg (by simp [hd]), ← hr, List.reverse_reverse]

/-- The first triple backtick in a backtick-free prefix followed by a
fence sits exactly at the end of that prefix. -/
theorem findSub_fence (x y : List Char) (hx : backtickC ∉ x) :
    findSubL (x ++ ([backtickC, backtickC, backtickC] ++ y))
      [backtickC, backtickC, backtickC] = some x.length := by
  induction x with
  | nil =>
    rw [List.nil_append,
      show ([backtickC, backtickC, backtickC] ++ y) =
        backtickC :: ([backtickC, backtickC] ++ y) from rfl,
      findSubL, if_pos (by simp [startsWithL])]
    rfl
  | cons a t ih =>
    have ha : ¬a = backtickC := fun h => hx (h ▸ List.mem_cons_self a t)
    have h0 : (decide (a = backtickC)) = false := by simp [ha]
    rw [List.cons_append, findSubL, if_neg (by simp [startsWithL, h0]),
      ih (fun h => hx (List.mem_cons_of_mem a h))]
    simp

/-- A reply wrapped in a ```json fenced block (with a backtick-free body)
is unwrapped to exactly the body. -/
theorem stripFence_fenced (mm : List Char) (hmm : backtickC ∉ mm) :
    stripFence ((backtickC :: backtickC :: backtickC :: ['j', 's', 'o', 'n', '\n']) ++
      ((lbrace :: (mm ++ [rbrace])) ++ ('\n' :: [backtickC, backtickC, backtickC]))) =
      lbrace :: (mm ++ [rbrace]) := by
  have hx : backtickC ∉
      (['j', 's', 'o', 'n', '\n'] ++ ((lbrace :: (mm ++ [rbrace])) ++ ['\n'])) := by
    intro hmem
    rcases List.mem_append.mp hmem with h1 | h2
    · exact absurd h1 (by decide)
    · rcases List.mem_append.mp h2 with h3 | h4
      · rcases List.mem_cons.mp h3 with h5 | h6
        · exact absurd h5 (by decide)
        · rcases List.mem_append.mp h6 with h7 | h8
          · exact hmm h7
          · exact absurd h8 (by decide)
      · exact absurd h4 (by decide)
  have hL : (backtickC :: backtickC :: backtickC :: ['j', 's', 'o', 'n', '\n']) ++
      ((lbrace :: (mm ++ [rbrace])) ++ ('\n' :: [backtickC, backtickC, backtickC])) =
      backtickC :: backtickC :: backtickC ::
        ((['j', 's', 'o', 'n', '\n'] ++ ((lbrace :: (mm ++ [rbrace])) ++ ['\n'])) ++
          ([backtickC, backtickC, backtickC] ++ [])) := by
    simp
  rw [hL]
  have hsw : startsWithL (backtickC :: backtickC :: backtickC ::
      ((['j', 's', 'o', 'n', '\n'] ++ ((lbrace :: (mm ++ [rbrace])) ++ ['\n'])) ++
        ([backtickC, backtickC, backtickC] ++ [])))
      [backtickC, backtickC, backtickC] = true := by
    simp [startsWithL]
  have hdrop3 : (backtickC :: backtickC :: backtickC ::
      ((['j', 's', 'o', 'n', '\n'] ++ ((lbrace :: (mm ++ [rbrace])) ++ ['\n'])) ++
        ([backtickC, backtickC, backtickC] ++ []))).drop 3 =
      (['j', 's', 'o', 'n', '\n'] ++ ((lbrace :: (mm ++ [rbrace])) ++ ['\n'])) ++
        ([backtickC, backtickC, backtickC] ++ []) := rfl
  have hfind :=
    findSub_fence (['j', 's', 'o', 'n', '\n'] ++ ((lbrace :: (mm ++ [rbrace])) ++ ['\n'])) [] hx
  have htake :=
    List.take_left (['j', 's', 'o', 'n', '\n'] ++ ((lbrace :: (mm ++ [rbrace])) ++ ['\n']))
      ([backtickC, backtickC, backtickC] ++ [])
  have hsh : (['j', 's', 'o', 'n', '\n'] ++ ((lbrace :: (mm ++ [rbrace])) ++ ['\n'])) =
      'j' :: 's' :: 'o' :: 'n' :: ('\n' :: ((lbrace :: (mm ++ [rbrace])) ++ ['\n'])) := by
    simp
  have t1 : Char.toLower 'j' = 'j' := by decide
  have t2 : Char.toLower 's' = 's' := by decide
  have t3 : Char.toLower 'o' = 'o' := by decide
  have t4 : Char.toLower 'n' = 'n' := by decide
  have hjson : startsWithL ((['j', 's', 'o', 'n', '\n'] ++
      ((lbrace :: (mm ++ [rbrace])) ++ ['\n'])).map Char.toLower) ['j', 's', 'o', 'n'] = true := by
    rw [hsh, List.map_cons, List.map_cons, List.map_cons, List.map_cons, t1, t2, t3, t4]
    simp [startsWithL]
  have hdrop4 : (['j', 's', 'o', 'n', '\n'] ++
      ((lbrace :: (mm ++ [rbrace])) ++ ['\n'])).drop 4 =
      '\n' :: ((lbrace :: (mm ++ [rbrace])) ++ ['\n']) := by
    rw [hsh]
    rfl
  have e1 : (['\n'] : List Char).dropWhile isPyWs = ([] : List Char) := by decide
  have e2 : ((['\n'] : List Char).reverse.dropWhile isPyWs).reverse = ([] : List Char) := by
    decide
  have hstrip : pyStripL ('\n' :: ((lbrace :: (mm ++ [rbrace])) ++ ['\n'])) =
      lbrace :: (mm ++ [rbrace]) := by
    have hsh2 : ('\n' :: ((lbrace :: (mm ++ [rbrace])) ++ ['\n'])) =
        ['\n'] ++ ((lbrace :: (mm ++ [rbrace])) ++ ['\n']) := rfl
    rw [hsh2, pyStripL_embed ['\n'] mm ['\n'], e1, e2]
    simp
  simp only [stripFence, hsw, if_true, hdrop3, hfind, htake, hjson, hdrop4, hstrip]

/-- Recovery of a prose-embedded serialization that the model finished
with a dangling comma and whitespace before the final close brace. -/
theorem extract_embedded_tc (a m w b : List Char)
    (ha1 : lbrace ∉ a) (ha2 : backtickC ∉ a) (hb : rbrace ∉ b)
    (hw : ∀ ch ∈ w, isPyWs ch = true)
    (hfix1 : fixComma rbrace (lbrace :: (m ++ [rbrace])) = lbrace :: (m ++ [rbrace]))
    (hfix2 : fixComma ']' (lbrace :: (m ++ [rbrace])) = lbrace :: (m ++ [rbrace])) :
    extractJsonL (a ++ ((lbrace :: ((m ++ ',' :: w) ++ [rbrace])) ++ b)) =
      lbrace :: (m ++ [rbrace]) := by
  have ha1' : lbrace ∉ a.dropWhile isPyWs :=
    fun hc => ha1 ((List.dropWhile_sublist isPyWs).subset hc)
  have ha2' : backtickC ∉ a.dropWhile isPyWs :=
    fun hc => ha2 ((List.dropWhile_sublist isPyWs).subset hc)
  have hb' : rbrace ∉ (b.reverse.dropWhile isPyWs).reverse :=
    fun hc => hb (List.mem_reverse.mp ((List.dropWhile_sublist isPyWs).subset
      (List.mem_reverse.mp hc)))
  have hsw : startsWithL ((a.dropWhile isPyWs) ++
      ((lbrace :: ((m ++ ',' :: w) ++ [rbrace])) ++ (b.reverse.dropWhile isPyWs).reverse))
      [backtickC, backtickC, backtickC] = false :=
    startsWith3_false (a.dropWhile isPyWs)
      (((m ++ ',' :: w) ++ [rbrace]) ++ (b.reverse.dropWhile isPyWs).reverse) ha2'
  rw [extractJsonL, pyStripL_embed a (m ++ ',' :: w) b, stripFence_id _ hsw,
    braceSlice_embed _ (m ++ ',' :: w) _ ha1' hb', fix_tc m w hw hfix1, hfix2]

/-- Recovery from a ```json fenced block whose body carries a dangling
comma before the final close brace. -/
theorem extract_fenced_tc (m w : List Char)
    (hm : backtickC ∉ m) (hw : ∀ ch ∈ w, isPyWs ch = true)
    (hfix1 : fixComma rbrace (lbrace :: (m ++ [rbrace])) = lbrace :: (m ++ [rbrace]))
    (hfix2 : fixComma ']' (lbrace :: (m ++ [rbrace])) = lbrace :: (m ++ [rbrace])) :
    extractJsonL ((backtickC :: backtickC :: backtickC :: ['j', 's', 'o', 'n', '\n']) ++
      ((lbrace :: ((m ++ ',' :: w) ++ [rbrace])) ++ ('\n' :: [backtickC, backtickC, backtickC]))) =
      lbrace :: (m ++ [rbrace]) := by
  have hbw : backtickC ∉ (m ++ ',' :: w) := by
    intro hmem
    rcases List.mem_append.mp hmem with h1 | h2
    · exact hm h1
    · rcases List.mem_cons.mp h2 with h3 | h4
      · exact absurd h3 (by decide)
      · have := hw backtickC h4
        exact absurd this (by decide)
  have hre : (backtickC :: backtickC :: backtickC :: ['j', 's', 'o', 'n', '\n']) ++
      ((lbrace :: ((m ++ ',' :: w) ++ [rbrace])) ++ ('\n' :: [backtickC, backtickC, backtickC])) =
      backtickC :: ((backtickC :: backtickC :: 'j' :: 's' :: 'o' :: 'n' :: '\n' ::
        ((lbrace :: ((m ++ ',' :: w) ++ [rbrace])) ++ ['\n', backtickC, backtickC])) ++
          [backtickC]) := by
    simp
  have hstrip : pyStripL ((backtickC :: backtickC :: backtickC :: ['j', 's', 'o', 'n', '\n']) ++
      ((lbrace :: ((m ++ ',' :: w) ++ [rbrace])) ++
        ('\n' :: [backtickC, backtickC, backtickC]))) =
      (backtickC :: backtickC :: backtickC :: ['j', 's', 'o', 'n', '\n']) ++
      ((lbrace :: ((m ++ ',' :: w) ++ [rbrace])) ++
        ('\n' :: [backtickC, backtickC, backtickC])) := by
    rw [hre]
    exact pyStripL_eq_self backtickC backtickC _ (by decide) (by decide)
  have hbs : braceSlice (lbrace :: ((m ++ ',' :: w) ++ [rbrace])) =
      lbrace :: ((m ++ ',' :: w) ++ [rbrace]) := by
    have h := braceSlice_embed [] (m ++ ',' :: w) [] (by simp) (by simp)
    have hid : ([] : List Char) ++ ((lbrace :: ((m ++ ',' :: w) ++ [rbrace])) ++ []) =
        lbrace :: ((m ++ ',' :: w) ++ [rbrace]) := by
      simp
    rw [hid] at h
    exact h
  rw [extractJsonL, hstrip, stripFence_fenced (m ++ ',' :: w) hbw, hbs,
    fix_tc m w hw hfix1, hfix2]

/-- C4 (amended): the parse/repair pipeline recovers the serialization of
a JSON object from every reply shape the recovery code targets, provided
the prose before the object holds no open brace and no backtick, the
prose after it holds no close brace, the object's serialization holds no
backtick, and the two comma repairs leave that serialization unchanged
(no string literal in it contains a comma followed only by whitespace and
a closing brace or bracket): (1) the object embedded in prose; (2) the
bare serialization, on which the pipeline is the identity; (3) the
serialization with a model-added dangling comma and whitespace before its
final close brace, embedded in the same prose; (4) that dangling-comma
serialization wrapped in a ```json fenced block.  The counterexample
shows the provisos are necessary. -/
theorem parser_roundtrip_amended (pre post ws : String) (kvs : List (String × Json))
    (hpre1 : lbrace ∉ pre.data) (hpre2 : backtickC ∉ pre.data) (hpost : rbrace ∉ post.data)
    (hws : ∀ c ∈ ws.data, isPyWs c = true)
    (hbt : backtickC ∉ (pyDumpsKVs kvs).data)
    (hfix1 : fixComma rbrace (pyDumps (Json.obj kvs)).data = (pyDumps (Json.obj kvs)).data)
    (hfix2 : fixComma ']' (pyDumps (Json.obj kvs)).data = (pyDumps (Json.obj kvs)).data) :
    extractJson (pre ++ pyDumps (Json.obj kvs) ++ post) = pyDumps (Json.obj kvs)
    ∧ extractJson (pyDumps (Json.obj kvs)) = pyDumps (Json.obj kvs)
    ∧ extractJson (pre ++ dumpsFinalTC kvs ws ++ post) = pyDumps (Json.obj kvs)
    ∧ extractJson ("```json\n" ++ dumpsFinalTC kvs ws ++ "\n```") = pyDumps (Json.obj kvs) := by
  have hd : (pyDumps (Json.obj kvs)).data =
      lbrace :: ((pyDumpsKVs kvs).data ++ [rbrace]) := by
    have e0 : pyDumps (Json.obj kvs) = "\x7b" ++ pyDumpsKVs kvs ++ "\x7d" := rfl
    have e1 : "\x7b".data = [lbrace] := by decide
    have e2 : "\x7d".data = [rbrace] := by decide
    rw [e0, String.data_append, String.data_append, e1, e2]
    simp
  have hTC : (dumpsFinalTC kvs ws).data =
      lbrace :: (((pyDumpsKVs kvs).data ++ ',' :: ws.data) ++ [rbrace]) := by
    have e0 : dumpsFinalTC kvs ws = "\x7b" ++ pyDumpsKVs kvs ++ "," ++ ws ++ "\x7d" := rfl
    have e1 : "\x7b".data = [lbrace] := by decide
    have e2 : "\x7d".data = [rbrace] := by decide
    have e3 : ",".data = [','] := by decide
    rw [e0, String.data_append, String.data_append, String.data_append, String.data_append,
      e1, e2, e3]
    simp
  refine ⟨?_, ?_, ?_, ?_⟩
  · have hsplit : (pre ++ pyDumps (Json.obj kvs) ++ post).data =
        pre.data ++ ((lbrace :: ((pyDumpsKVs kvs).data ++ [rbrace])) ++ post.data) := by
      rw [String.data_append, String.data_append, hd]
      simp [List.append_assoc]
    rw [extractJson, hsplit,
      extract_embedded _ _ _ hpre1 hpre2 hpost (hd ▸ hfix1) (hd ▸ hfix2), ← hd]
  · have hsplit2 : (pyDumps (Json.obj kvs)).data =
        ([] : List Char) ++
          ((lbrace :: ((pyDumpsKVs kvs).data ++ [rbrace])) ++ ([] : List Char)) := by
      simpa using hd
    rw [extractJson, hsplit2,
      extract_embedded _ _ _ (by simp) (by simp) (by simp) (hd ▸ hfix1) (hd ▸ hfix2), ← hd]
  · have hsplit3 : (pre ++ dumpsFinalTC kvs ws ++ post).data =
        pre.data ++
          ((lbrace :: (((pyDumpsKVs kvs).data ++ ',' :: ws.data) ++ [rbrace])) ++ post.data) := by
      rw [String.data_append, String.data_append, hTC]
      simp [List.append_assoc]
    rw [extractJson, hsplit3,
      extract_embedded_tc _ _ _ _ hpre1 hpre2 hpost hws (hd ▸ hfix1) (hd ▸ hfix2), ← hd]
  · have hsplit4 : ("```json\n" ++ dumpsFinalTC kvs ws ++ "\n```").data =
        (backtickC :: backtickC :: backtickC :: ['j', 's', 'o', 'n', '\n']) ++
          ((lbrace :: (((pyDumpsKVs kvs).data ++ ',' :: ws.data) ++ [rbrace])) ++
            ('\n' :: [backtickC, backtickC, backtickC])) := by
      have e1 : "```json\n".data =
          backtickC :: backtickC :: backtickC :: ['j', 's', 'o', 'n', '\n'] := by decide
      have e2 : "\n```".data = '\n' :: [backtickC, backtickC, backtickC] := by decide
      rw [String.data_append, String.data_append, hTC, e1, e2]
      simp [List.append_assoc]
    rw [extractJson, hsplit4,
      extract_fenced_tc _ _ hbt hws (hd ▸ hfix1) (hd ▸ hfix2), ← hd]

/-- Witness for the amended C4, exercising all four recovered reply
shapes at a concrete object, prose and dangling comma. -/
theorem parser_roundtrip_amended_w :
    extractJson ("Result: " ++ pyDumps (Json.obj [("a", Json.str "x")]) ++ " end.") =
      pyDumps (Json.obj [("a", Json.str "x")])
    ∧ extractJson (pyDumps (Json.obj [("a", Json.str "x")])) =
      pyDumps (Json.obj [("a", Json.str "x")])
    ∧ extractJson ("Result: " ++ dumpsFinalTC [("a", Json.str "x")] " " ++ " end.") =
      pyDumps (Json.obj [("a", Json.str "x")])
    ∧ extractJson ("```json\n" ++ dumpsFinalTC [("a", Json.str "x")] " " ++ "\n```") =
      pyDumps (Json.obj [("a", Json.str "x")]) :=
  parser_roundtrip_amended "Result: " " end." " " [("a", Json.str "x")]
    (by decide) (by decide) (by decide) (by decide) (by decide) (by decide) (by decide)
